import Mathlib

/-!
# Formal model of the USDC yield-optimizer core

Shallow embedding of the two core contracts of the repository:

* `USDCYieldVault` (contracts/USDCYieldVault.sol) — an ERC-4626 vault built on
  the OpenZeppelin v5 base contracts (`ERC4626`, `ERC20`, `Ownable`, `Pausable`,
  `ReentrancyGuard`), extended with principal tracking and a `rebalance` entry
  point moving the whole balance between protocol adapters.
* `SessionKeyManager` — a registry of session-key capability grants.

Modelling conventions:

* `uint256` is modelled as `Nat`.  Solidity checked arithmetic reverts on
  underflow and on division by zero; these are modelled by `solSub` / `solDiv`
  returning an error.  Checked addition can only wrap at `2^256`, which is
  unreachable for token quantities bounded by the token's total supply, so
  additions are plain `Nat` addition.
* Addresses are an abstract type `Addr` with decidable equality for the vault;
  the registry uses `Nat` with `0` playing the role of `address(0)`.
* A revert in the EVM rolls the whole call's storage back to the snapshot taken
  at call entry.  Each operation is therefore written as a function
  `state → Except Err (state × output)` threading intermediate states; the
  executor `vaultExec` / `regExec` applies the EVM rollback on error.
* `nonReentrant` guards are no-ops here because the model executes exactly one
  call at a time (no reentrancy is expressible).
* ERC-20 approvals of the underlying asset are abstracted away (callers are
  assumed to have approved the vault; failure of that check is just one more
  revert and is orthogonal to every claim).  Share allowances, which `withdraw`
  spends when `caller ≠ owner`, are modelled, with `none` standing for the
  infinite allowance `type(uint256).max`.
* Zero-address checks of OpenZeppelin ERC20 `_mint`/`_transfer` are not
  modelled (no claim mentions them); the `address(0)` sentinel for an unset
  adapter is modelled as `Option.none`.
-/

namespace YieldOptimizer

/-- Vault errors and panics observable from the vault's entry points.
`EnforcedPause`/`ExpectedPause` and `OwnableUnauthorizedAccount` come from the
OpenZeppelin `Pausable`/`Ownable` bases; `AdapterNotSet` models the revert of a
call into an adapter slot holding `address(0)` (no code at the target);
`AdapterInsufficientBalance` is the mock adapter's
`require(_balance >= amount)`; `DivisionByZero` and `Underflow` are the
Solidity arithmetic panics 0x12 and 0x11. -/
inductive VaultError
  | InvalidAdapter
  | InsufficientYieldGain
  | GasCostTooHigh
  | NoFundsToRebalance
  | EnforcedPause
  | ExpectedPause
  | OwnableUnauthorizedAccount
  | AdapterNotSet
  | AdapterInsufficientBalance
  | ERC20InsufficientBalance
  | ERC20InsufficientAllowance
  | ERC4626ExceededMaxWithdraw
  | DivisionByZero
  | Underflow
deriving DecidableEq, Repr

/-- Solidity checked division: division by zero raises panic 0x12. -/
def solDiv (a b : Nat) : Except VaultError Nat :=
  if b = 0 then .error .DivisionByZero else .ok (a / b)

/-- Solidity checked subtraction: underflow raises panic 0x11. -/
def solSub (a b : Nat) : Except VaultError Nat :=
  if a < b then .error .Underflow else .ok (a - b)

/-- Ceiling division on `Nat` (OpenZeppelin `Math.mulDiv` with `Ceil`
rounding, denominator positive in every use below). -/
def divCeil (a b : Nat) : Nat := (a + b - 1) / b

/-- Solidity `enum Protocol { AAVE, MORPHO, MOONWELL }`. -/
inductive Protocol
  | AAVE
  | MORPHO
  | MOONWELL
deriving DecidableEq, Repr

/-- Observable state of one protocol adapter, modelled from
`MockProtocolAdapter.sol` (the zero-slippage adapter used by the repository's
tests): `bal` is its `_balance` (equal to the USDC it holds), `apy` its
reported rate in basis points. -/
structure AdapterState where
  bal : Nat
  apy : Nat
deriving DecidableEq, Repr

/-- Storage of `USDCYieldVault` together with the relevant environment:
`balanceOf`/`totalSupply`/`shareAllowance` are the inherited ERC20 share
ledger, `assetBalanceOf` the USDC balances of external accounts,
`idleAssets` the USDC held by the vault contract itself
(`IERC20(asset()).balanceOf(address(this))`), and the remaining fields are the
contract's declared storage (`activeProtocol`, `adapters`,
`lastRebalanceBlock`, `principalDeposited`, `totalPrincipal`, the `Pausable`
flag and the `Ownable` owner). An adapter slot holding `address(0)` is
`none`. -/
structure VaultState (Addr : Type) where
  balanceOf : Addr → Nat
  totalSupply : Nat
  shareAllowance : Addr → Addr → Option Nat
  assetBalanceOf : Addr → Nat
  idleAssets : Nat
  activeProtocol : Protocol
  adapters : Protocol → Option AdapterState
  lastRebalanceBlock : Nat
  principalDeposited : Addr → Nat
  totalPrincipal : Nat
  paused : Bool
  owner : Addr

/-- Constant `MIN_REBALANCE_THRESHOLD = 30` basis points. -/
def MIN_REBALANCE_THRESHOLD : Nat := 30

/-- Constant `MAX_GAS_COST_THRESHOLD = 10` basis points. -/
def MAX_GAS_COST_THRESHOLD : Nat := 10

section Vault

variable {Addr : Type} [DecidableEq Addr]

/-- Function `totalAssets()`: idle balance plus the active adapter's reported balance
(just the idle balance when the active adapter slot is unset). -/
def totalAssets (s : VaultState Addr) : Nat :=
  match s.adapters s.activeProtocol with
  | none => s.idleAssets
  | some ad => s.idleAssets + ad.bal

/-- OpenZeppelin v5 ERC4626 `previewDeposit` with the default decimals offset
0: `assets.mulDiv(totalSupply() + 1, totalAssets() + 1, Floor)`. -/
def previewDeposit (s : VaultState Addr) (assets : Nat) : Nat :=
  assets * (s.totalSupply + 1) / (totalAssets s + 1)

/-- OpenZeppelin v5 ERC4626 `previewWithdraw`:
`assets.mulDiv(totalSupply() + 1, totalAssets() + 1, Ceil)`. -/
def previewWithdraw (s : VaultState Addr) (assets : Nat) : Nat :=
  divCeil (assets * (s.totalSupply + 1)) (totalAssets s + 1)

/-- OpenZeppelin v5 ERC4626 `convertToAssets`:
`shares.mulDiv(totalAssets() + 1, totalSupply() + 1, Floor)`. -/
def convertToAssets (s : VaultState Addr) (shares : Nat) : Nat :=
  shares * (totalAssets s + 1) / (s.totalSupply + 1)

/-- OpenZeppelin v5 ERC4626 `maxWithdraw(owner)`:
`_convertToAssets(balanceOf(owner), Floor)`. -/
def maxWithdraw (s : VaultState Addr) (owner : Addr) : Nat :=
  convertToAssets s (s.balanceOf owner)

/-- Function `_depositToProtocol(amount)`: approve the active adapter and call its
`deposit`, which pulls `amount` USDC from the vault into the adapter.  A call
into an unset (`address(0)`) slot reverts; the USDC `transferFrom` requires the
vault to hold `amount`. -/
def depositToProtocol (amount : Nat) (s : VaultState Addr) :
    Except VaultError (VaultState Addr) :=
  match s.adapters s.activeProtocol with
  | none => .error .AdapterNotSet
  | some ad =>
      if s.idleAssets < amount then .error .ERC20InsufficientBalance
      else .ok { s with
        idleAssets := s.idleAssets - amount,
        adapters := Function.update s.adapters s.activeProtocol
          (some { ad with bal := ad.bal + amount }) }

/-- Function `_withdrawFromProtocol(amount)`: call the active adapter's `withdraw`,
which requires `_balance >= amount` and transfers `amount` USDC back to the
vault. -/
def withdrawFromProtocol (amount : Nat) (s : VaultState Addr) :
    Except VaultError (VaultState Addr) :=
  match s.adapters s.activeProtocol with
  | none => .error .AdapterNotSet
  | some ad =>
      if ad.bal < amount then .error .AdapterInsufficientBalance
      else .ok { s with
        idleAssets := s.idleAssets + amount,
        adapters := Function.update s.adapters s.activeProtocol
          (some { ad with bal := ad.bal - amount }) }

/-- OpenZeppelin v5 `ERC4626.deposit`: `maxDeposit` is unlimited, so the only
steps are `shares := previewDeposit(assets)` (computed on the pre-transfer
state) and `_deposit` = `safeTransferFrom(caller → vault, assets)` followed by
`_mint(receiver, shares)`. -/
def superDeposit (caller : Addr) (assets : Nat) (receiver : Addr)
    (s : VaultState Addr) : Except VaultError (VaultState Addr × Nat) :=
  let shares := previewDeposit s assets
  if s.assetBalanceOf caller < assets then .error .ERC20InsufficientBalance
  else
    let s₁ := { s with
      assetBalanceOf := Function.update s.assetBalanceOf caller
        (s.assetBalanceOf caller - assets),
      idleAssets := s.idleAssets + assets }
    .ok ({ s₁ with
      balanceOf := Function.update s₁.balanceOf receiver
        (s₁.balanceOf receiver + shares),
      totalSupply := s₁.totalSupply + shares }, shares)

/-- OpenZeppelin v5 `ERC20._spendAllowance(owner, spender, value)`: a `none`
allowance models `type(uint256).max` and is not decremented. -/
def spendAllowance (owner spender : Addr) (value : Nat) (s : VaultState Addr) :
    Except VaultError (VaultState Addr) :=
  match s.shareAllowance owner spender with
  | none => .ok s
  | some a =>
      if a < value then .error .ERC20InsufficientAllowance
      else .ok { s with
        shareAllowance := Function.update s.shareAllowance owner
          (Function.update (s.shareAllowance owner) spender (some (a - value))) }

/-- Tail of OpenZeppelin v5 `ERC4626._withdraw` after the allowance step:
`_burn(owner, shares)` followed by `safeTransfer(vault → receiver, assets)`. -/
def burnAndTransfer (assets : Nat) (receiver owner : Addr) (shares : Nat)
    (s : VaultState Addr) : Except VaultError (VaultState Addr × Nat) :=
  if s.balanceOf owner < shares then .error .ERC20InsufficientBalance
  else
    let s₂ := { s with
      balanceOf := Function.update s.balanceOf owner
        (s.balanceOf owner - shares),
      totalSupply := s.totalSupply - shares }
    if s₂.idleAssets < assets then .error .ERC20InsufficientBalance
    else .ok ({ s₂ with
      idleAssets := s₂.idleAssets - assets,
      assetBalanceOf := Function.update s₂.assetBalanceOf receiver
        (s₂.assetBalanceOf receiver + assets) }, shares)

/-- OpenZeppelin v5 `ERC4626.withdraw(assets, receiver, owner)`: the
`maxWithdraw` bound, `shares := previewWithdraw(assets)`, then `_withdraw` =
spend the caller's share allowance when `caller ≠ owner`, `_burn(owner,
shares)`, and `safeTransfer(vault → receiver, assets)`. -/
def superWithdraw (caller : Addr) (assets : Nat) (receiver owner : Addr)
    (s : VaultState Addr) : Except VaultError (VaultState Addr × Nat) :=
  if maxWithdraw s owner < assets then .error .ERC4626ExceededMaxWithdraw
  else
    let shares := previewWithdraw s assets
    if caller = owner then burnAndTransfer assets receiver owner shares s
    else
      match spendAllowance owner caller shares s with
      | .error e => .error e
      | .ok s₁ => burnAndTransfer assets receiver owner shares s₁

/-- Entry point `USDCYieldVault.deposit(assets, receiver)` (`nonReentrant whenNotPaused`):
`super.deposit`, then record principal for the receiver, then forward the
assets to the active protocol. -/
def deposit (caller : Addr) (assets : Nat) (receiver : Addr)
    (s : VaultState Addr) : Except VaultError (VaultState Addr × Nat) :=
  if s.paused then .error .EnforcedPause
  else
    match superDeposit caller assets receiver s with
    | .error e => .error e
    | .ok (s₁, shares) =>
        let s₂ := { s₁ with
          principalDeposited := Function.update s₁.principalDeposited receiver
            (s₁.principalDeposited receiver + assets),
          totalPrincipal := s₁.totalPrincipal + assets }
        match depositToProtocol assets s₂ with
        | .error e => .error e
        | .ok s₃ => .ok (s₃, shares)

/-- Entry point `USDCYieldVault.withdraw(assets, receiver, owner)` (`nonReentrant`, no
pause gate): compute `shares = previewWithdraw(assets)`, pull `assets` out of
the active protocol, reduce the owner's principal by
`principalDeposited[owner] * shares / balanceOf(owner)` (checked division and
subtraction), then `super.withdraw`.  The trailing yield computation only
emits an event and is not part of the state. -/
def withdraw (caller : Addr) (assets : Nat) (receiver owner : Addr)
    (s : VaultState Addr) : Except VaultError (VaultState Addr × Nat) :=
  let shares := previewWithdraw s assets
  match withdrawFromProtocol assets s with
  | .error e => .error e
  | .ok s₁ =>
      match solDiv (s₁.principalDeposited owner * shares) (s₁.balanceOf owner) with
      | .error e => .error e
      | .ok principalToReduce =>
          match solSub (s₁.principalDeposited owner) principalToReduce with
          | .error e => .error e
          | .ok p₁ =>
              match solSub s₁.totalPrincipal principalToReduce with
              | .error e => .error e
              | .ok tp₁ =>
                  let s₂ := { s₁ with
                    principalDeposited :=
                      Function.update s₁.principalDeposited owner p₁,
                    totalPrincipal := tp₁ }
                  superWithdraw caller assets receiver owner s₂

/-- Entry point `USDCYieldVault.rebalance(targetProtocol, expectedGain, gasCost)`
(`external nonReentrant whenNotPaused` — note: no `onlyOwner`; `caller` is
taken as a parameter to make the absence of any caller check explicit).
Checks the two thresholds and non-emptiness in order, then moves
`totalAssets()` out of the old active adapter and into the target one and
records the block number. -/
def rebalance (caller : Addr) (targetProtocol : Protocol)
    (expectedGain gasCost blk : Nat) (s : VaultState Addr) :
    Except VaultError (VaultState Addr) :=
  if s.paused then .error .EnforcedPause
  else if expectedGain < MIN_REBALANCE_THRESHOLD then .error .InsufficientYieldGain
  else if MAX_GAS_COST_THRESHOLD < gasCost then .error .GasCostTooHigh
  else if totalAssets s = 0 then .error .NoFundsToRebalance
  else
    let amount := totalAssets s
    match withdrawFromProtocol amount s with
    | .error e => .error e
    | .ok s₁ =>
        let s₂ := { s₁ with activeProtocol := targetProtocol }
        match depositToProtocol amount s₂ with
        | .error e => .error e
        | .ok s₃ => .ok { s₃ with lastRebalanceBlock := blk }

/-- Entry point `setAdapter(protocol, adapter)` (`onlyOwner`); passing `address(0)`
(`none`) reverts with `InvalidAdapter`. -/
def setAdapter (caller : Addr) (protocol : Protocol)
    (adapter : Option AdapterState) (s : VaultState Addr) :
    Except VaultError (VaultState Addr) :=
  if caller ≠ s.owner then .error .OwnableUnauthorizedAccount
  else
    match adapter with
    | none => .error .InvalidAdapter
    | some ad => .ok { s with adapters := Function.update s.adapters protocol (some ad) }

/-- Entry point `pause()` (`onlyOwner`); OpenZeppelin `_pause` is `whenNotPaused`. -/
def pause (caller : Addr) (s : VaultState Addr) :
    Except VaultError (VaultState Addr) :=
  if caller ≠ s.owner then .error .OwnableUnauthorizedAccount
  else if s.paused then .error .EnforcedPause
  else .ok { s with paused := true }

/-- Entry point `unpause()` (`onlyOwner`); OpenZeppelin `_unpause` is `whenPaused`. -/
def unpause (caller : Addr) (s : VaultState Addr) :
    Except VaultError (VaultState Addr) :=
  if caller ≠ s.owner then .error .OwnableUnauthorizedAccount
  else if s.paused then .ok { s with paused := false }
  else .error .ExpectedPause

/-- State produced by the constructor: empty share and principal ledgers,
`activeProtocol = Protocol.AAVE`, no adapters bound, not paused, owner =
deployer.  The USDC balances of external accounts are an environment
parameter. -/
def initialVault (deployer : Addr) (usdc : Addr → Nat) : VaultState Addr where
  balanceOf := fun _ => 0
  totalSupply := 0
  shareAllowance := fun _ _ => some 0
  assetBalanceOf := usdc
  idleAssets := 0
  activeProtocol := Protocol.AAVE
  adapters := fun _ => none
  lastRebalanceBlock := 0
  principalDeposited := fun _ => 0
  totalPrincipal := 0
  paused := false
  owner := deployer

end Vault

/-- One invocation of a mutating vault entry point, with its caller and
arguments. -/
inductive VaultOp (Addr : Type)
  | deposit (caller : Addr) (assets : Nat) (receiver : Addr)
  | withdraw (caller : Addr) (assets : Nat) (receiver owner : Addr)
  | rebalance (caller : Addr) (target : Protocol) (expectedGain gasCost blk : Nat)
  | setAdapter (caller : Addr) (protocol : Protocol) (adapter : Option AdapterState)
  | pause (caller : Addr)
  | unpause (caller : Addr)

section VaultStep

variable {Addr : Type} [DecidableEq Addr]

/-- Dispatch one vault call, forgetting the return value. -/
def vaultStep (op : VaultOp Addr) (s : VaultState Addr) :
    Except VaultError (VaultState Addr) :=
  match op with
  | .deposit caller assets receiver => (deposit caller assets receiver s).map Prod.fst
  | .withdraw caller assets receiver owner =>
      (withdraw caller assets receiver owner s).map Prod.fst
  | .rebalance caller target expectedGain gasCost blk =>
      rebalance caller target expectedGain gasCost blk s
  | .setAdapter caller protocol adapter => setAdapter caller protocol adapter s
  | .pause caller => pause caller s
  | .unpause caller => unpause caller s

/-- EVM transaction semantics: a reverted call rolls storage back to the
snapshot taken at entry, so a failing step leaves the state unchanged. -/
def vaultExec (op : VaultOp Addr) (s : VaultState Addr) : VaultState Addr :=
  match vaultStep op s with
  | .ok s₁ => s₁
  | .error _ => s

end VaultStep

/-! ## SessionKeyManager -/

/-- Registry addresses are `Nat`, with `0` playing the role of `address(0)`. -/
abbrev Address : Type := Nat

/-- Solidity `bytes4` function selectors. -/
abbrev Selector : Type := Nat

/-- Signatures and message hashes, kept abstract as `Nat`; the ECDSA pipeline
`messageHash.toEthSignedMessageHash().recover(signature)` is modelled by an
arbitrary function `recover : Hash → Sig → Address` passed to `validate`. -/
abbrev Sig : Type := Nat

/-- Message hashes (see `Sig`). -/
abbrev Hash : Type := Nat

/-- The grant identity.  The contract computes
`keccak256(abi.encodePacked(msg.sender, sessionKey, target, functionSelector,
validAfter, validUntil))`; the packed encoding of these fixed-width fields is
injective, and keccak256 is modelled as collision-free, so the hash is
represented by the field tuple itself. -/
structure KeyId where
  granter : Address
  sessionKey : Address
  target : Address
  functionSelector : Selector
  validAfter : Nat
  validUntil : Nat
deriving DecidableEq, Repr

/-- Solidity `struct SessionKeyData` of `SessionKeyManager.sol`. -/
structure SessionKeyData where
  sessionKey : Address
  target : Address
  functionSelector : Selector
  valueLimit : Nat
  maxTransactions : Nat
  transactionCount : Nat
  validAfter : Nat
  validUntil : Nat
  isActive : Bool
deriving DecidableEq, Repr

/-- Registry errors.  The custom errors are declared in the contract; the
string-revert requires of `grantSessionKey` / `revokeSessionKey` /
`validateSessionKey` are each given their own distinct constructor
(`InvalidSessionKey` = "Invalid session key", `InvalidTarget` = "Invalid
target", `InvalidValidityPeriod` = "Invalid validity period",
`AlreadyExpired` = "Already expired", `SessionKeyAlreadyExists` = "Session key
already exists", `UnauthorizedRevoke` = "Unauthorized", `InvalidSignature` =
"Invalid signature"). -/
inductive RegError
  | SessionKeyNotFound
  | SessionKeyNotActive
  | SessionKeyExpired
  | SessionKeyNotYetValid
  | ExceededTransactionLimit
  | ExceededValueLimit
  | UnauthorizedTarget
  | UnauthorizedFunction
  | InvalidSessionKey
  | InvalidTarget
  | InvalidValidityPeriod
  | AlreadyExpired
  | SessionKeyAlreadyExists
  | UnauthorizedRevoke
  | InvalidSignature
deriving DecidableEq, Repr

/-- Storage of `SessionKeyManager`.  A mapping entry whose stored
`sessionKey` is `address(0)` (the Solidity mapping default, used by the
contract as its existence check) is modelled as `none`: `grantSessionKey`
never stores a zero `sessionKey`, so the two representations coincide. -/
structure RegState where
  sessionKeys : KeyId → Option SessionKeyData
  userSessionKeys : Address → List KeyId
  owner : Address

/-- Registry state produced by the constructor (`Ownable(msg.sender)`). -/
def initialReg (deployer : Address) : RegState where
  sessionKeys := fun _ => none
  userSessionKeys := fun _ => []
  owner := deployer

/-- Entry point `grantSessionKey(sessionKey, target, functionSelector, valueLimit,
maxTransactions, validAfter, validUntil)`: the four requires in source order,
the derived `keyId`, the duplicate check, then storage of the fresh grant and
the push onto the caller's key list.  `now` is `block.timestamp`. -/
def grantSessionKey (caller : Address) (sessionKey target : Address)
    (functionSelector : Selector) (valueLimit maxTransactions : Nat)
    (validAfter validUntil : Nat) (now : Nat) (s : RegState) :
    Except RegError (RegState × KeyId) :=
  if sessionKey = 0 then .error .InvalidSessionKey
  else if target = 0 then .error .InvalidTarget
  else if ¬ validAfter < validUntil then .error .InvalidValidityPeriod
  else if ¬ now < validUntil then .error .AlreadyExpired
  else
    let keyId : KeyId :=
      ⟨caller, sessionKey, target, functionSelector, validAfter, validUntil⟩
    match s.sessionKeys keyId with
    | some _ => .error .SessionKeyAlreadyExists
    | none =>
        let data : SessionKeyData :=
          { sessionKey := sessionKey
            target := target
            functionSelector := functionSelector
            valueLimit := valueLimit
            maxTransactions := maxTransactions
            transactionCount := 0
            validAfter := validAfter
            validUntil := validUntil
            isActive := true }
        .ok ({ s with
          sessionKeys := Function.update s.sessionKeys keyId (some data),
          userSessionKeys := Function.update s.userSessionKeys caller
            (s.userSessionKeys caller ++ [keyId]) }, keyId)

/-- View `isOwnerOfSessionKey(user, keyId)`: linear scan of the user's key list. -/
def isOwnerOfSessionKey (s : RegState) (user : Address) (keyId : KeyId) : Bool :=
  (s.userSessionKeys user).contains keyId

/-- Entry point `revokeSessionKey(keyId)`: existence check, authorization (registry owner
or original granter), then `isActive := false`. -/
def revokeSessionKey (caller : Address) (keyId : KeyId) (s : RegState) :
    Except RegError RegState :=
  match s.sessionKeys keyId with
  | none => .error .SessionKeyNotFound
  | some data =>
      if ¬ (caller = s.owner ∨ isOwnerOfSessionKey s caller keyId) then
        .error .UnauthorizedRevoke
      else .ok { s with
        sessionKeys := Function.update s.sessionKeys keyId
          (some { data with isActive := false }) }

/-- Entry point `validateSessionKey(keyId, target, functionSelector, value, signature,
messageHash)`: the nine checks in source order, each with its own failure
signal, then the counter increment.  `recover` abstracts the ECDSA recovery
pipeline and `now` is `block.timestamp`. -/
def validateSessionKey (recover : Hash → Sig → Address) (keyId : KeyId)
    (target : Address) (functionSelector : Selector) (value : Nat)
    (signature : Sig) (messageHash : Hash) (now : Nat) (s : RegState) :
    Except RegError (RegState × Bool) :=
  match s.sessionKeys keyId with
  | none => .error .SessionKeyNotFound
  | some data =>
      if ¬ data.isActive then .error .SessionKeyNotActive
      else if now < data.validAfter then .error .SessionKeyNotYetValid
      else if data.validUntil < now then .error .SessionKeyExpired
      else if data.maxTransactions ≤ data.transactionCount then
        .error .ExceededTransactionLimit
      else if data.valueLimit < value then .error .ExceededValueLimit
      else if target ≠ data.target then .error .UnauthorizedTarget
      else if functionSelector ≠ data.functionSelector then
        .error .UnauthorizedFunction
      else if recover messageHash signature ≠ data.sessionKey then
        .error .InvalidSignature
      else .ok ({ s with
        sessionKeys := Function.update s.sessionKeys keyId
          (some { data with transactionCount := data.transactionCount + 1 }) },
        true)

/-- One invocation of a mutating registry entry point.  The timestamp of the
call is part of the operation (an environment input). -/
inductive RegOp
  | grant (caller sessionKey target : Address) (functionSelector : Selector)
      (valueLimit maxTransactions validAfter validUntil now : Nat)
  | validate (keyId : KeyId) (target : Address) (functionSelector : Selector)
      (value : Nat) (signature : Sig) (messageHash : Hash) (now : Nat)
  | revoke (caller : Address) (keyId : KeyId)

/-- Dispatch one registry call, forgetting the return value. -/
def regStep (recover : Hash → Sig → Address) (op : RegOp) (s : RegState) :
    Except RegError RegState :=
  match op with
  | .grant caller sessionKey target functionSelector valueLimit maxTransactions
      validAfter validUntil now =>
      (grantSessionKey caller sessionKey target functionSelector valueLimit
        maxTransactions validAfter validUntil now s).map Prod.fst
  | .validate keyId target functionSelector value signature messageHash now =>
      (validateSessionKey recover keyId target functionSelector value signature
        messageHash now s).map Prod.fst
  | .revoke caller keyId => revokeSessionKey caller keyId s

/-- EVM transaction semantics for the registry: a reverted call leaves the
state unchanged. -/
def regExec (recover : Hash → Sig → Address) (op : RegOp) (s : RegState) :
    RegState :=
  match regStep recover op s with
  | .ok s₁ => s₁
  | .error _ => s

/-! ## Derived predicates and concrete states used by the theorems -/

section Predicates

variable {Addr : Type} [DecidableEq Addr]

/-- Overwrite only the pause flag of a vault state (used to compare runs of
`withdraw` from states that agree on everything but `paused`). -/
def setPaused (s : VaultState Addr) (b : Bool) : VaultState Addr :=
  { s with paused := b }

/-- The principal-accounting invariant of the spec:
`sum(principal[*]) == totalPrincipal`. -/
abbrev principalInv [Fintype Addr] (s : VaultState Addr) : Prop :=
  ∑ a, s.principalDeposited a = s.totalPrincipal

/-- Well-formedness of stored grants: `grantSessionKey` only stores grants
with `validAfter < validUntil`, and no operation changes those fields. -/
abbrev regWF (s : RegState) : Prop :=
  ∀ k d, s.sessionKeys k = some d → d.validAfter < d.validUntil

/-- Predicate: `keyId` refers to a stored, deactivated grant. -/
def revokedAt (s : RegState) (k : KeyId) : Prop :=
  ∃ d, s.sessionKeys k = some d ∧ d.isActive = false

end Predicates

/-- A vault run by owner `0` after a single 1000-unit deposit by account `1`:
1000 shares outstanding, the Aave adapter holding the 1000 units, a Morpho
adapter bound and empty, no Moonwell adapter, not paused. -/
def demoVault : VaultState Nat where
  balanceOf := fun a => if a = 1 then 1000 else 0
  totalSupply := 1000
  shareAllowance := fun _ _ => some 0
  assetBalanceOf := fun a => if a = 1 then 9000 else 0
  idleAssets := 0
  activeProtocol := Protocol.AAVE
  adapters := fun p =>
    match p with
    | Protocol.AAVE => some ⟨1000, 350⟩
    | Protocol.MORPHO => some ⟨0, 420⟩
    | Protocol.MOONWELL => none
  lastRebalanceBlock := 0
  principalDeposited := fun a => if a = 1 then 1000 else 0
  totalPrincipal := 1000
  paused := false
  owner := 0

/-- State `demoVault` after the owner called `pause()`. -/
def pausedVault : VaultState Nat := setPaused demoVault true

/-- A vault holding 10 shares against 13 units of assets (a 10-unit deposit
followed by 3 units of adapter yield). -/
def yieldVault : VaultState Nat where
  balanceOf := fun a => if a = 1 then 10 else 0
  totalSupply := 10
  shareAllowance := fun _ _ => some 0
  assetBalanceOf := fun a => if a = 1 then 100 else 0
  idleAssets := 0
  activeProtocol := Protocol.AAVE
  adapters := fun p =>
    match p with
    | Protocol.AAVE => some ⟨13, 350⟩
    | _ => none
  lastRebalanceBlock := 0
  principalDeposited := fun a => if a = 1 then 10 else 0
  totalPrincipal := 10
  paused := false
  owner := 0

/-- An empty vault with a zero-balance Aave adapter bound (as after
`setAdapter` and before any deposit). -/
def emptyVault : VaultState Nat where
  balanceOf := fun _ => 0
  totalSupply := 0
  shareAllowance := fun _ _ => some 0
  assetBalanceOf := fun a => if a = 1 then 5000 else 0
  idleAssets := 0
  activeProtocol := Protocol.AAVE
  adapters := fun p =>
    match p with
    | Protocol.AAVE => some ⟨0, 350⟩
    | _ => none
  lastRebalanceBlock := 0
  principalDeposited := fun _ => 0
  totalPrincipal := 0
  paused := false
  owner := 0

/-- State `demoVault` with 500 extra USDC sitting idle in the vault contract
(e.g. sent directly to its address), so the active adapter holds less than
`totalAssets()`. -/
def idleVault : VaultState Nat := { demoVault with idleAssets := 500 }

/-- State `demoVault` with every adapter slot unset but 800 USDC idle in the
vault. -/
def bareVault : VaultState Nat :=
  { demoVault with adapters := fun _ => none, idleAssets := 800 }

/-- An empty-share vault that nevertheless reports 5 units of assets (a
direct USDC donation to the vault address before the first deposit). -/
def donatedVault : VaultState Nat := { emptyVault with idleAssets := 5 }

/-- Concrete stand-in for the ECDSA recovery pipeline in witnesses: the
signature value itself names the signer. -/
def demoRecover : Hash → Sig → Address := fun _ sig => sig

/-- Identity of the demo grant: granter `10`, session key `5`, target `7`,
selector `1`, window `[100, 200]`. -/
def demoKey : KeyId := ⟨10, 5, 7, 1, 100, 200⟩

/-- The demo grant: value limit `0`, budget of `2` transactions, unused. -/
def demoGrantData : SessionKeyData :=
  { sessionKey := 5
    target := 7
    functionSelector := 1
    valueLimit := 0
    maxTransactions := 2
    transactionCount := 0
    validAfter := 100
    validUntil := 200
    isActive := true }

/-- Registry owned by `0` holding exactly the demo grant. -/
def demoReg : RegState where
  sessionKeys := fun k => if k = demoKey then some demoGrantData else none
  userSessionKeys := fun a => if a = 10 then [demoKey] else []
  owner := 0

/-- State `demoReg` after the granter revoked the demo grant. -/
def revokedReg : RegState :=
  { demoReg with
    sessionKeys := Function.update demoReg.sessionKeys demoKey
      (some { demoGrantData with isActive := false }) }

/-! ## Characterization lemmas for the vault operations -/

section VaultLemmas

variable {Addr : Type} [DecidableEq Addr]

theorem depositToProtocol_ok {amount : Nat} {s s' : VaultState Addr}
    (h : depositToProtocol amount s = .ok s') :
    ∃ ad, s.adapters s.activeProtocol = some ad ∧ amount ≤ s.idleAssets ∧
      s'.idleAssets = s.idleAssets - amount ∧
      s'.adapters = Function.update s.adapters s.activeProtocol
        (some { ad with bal := ad.bal + amount }) ∧
      s'.balanceOf = s.balanceOf ∧ s'.totalSupply = s.totalSupply ∧
      s'.assetBalanceOf = s.assetBalanceOf ∧
      s'.activeProtocol = s.activeProtocol ∧
      s'.principalDeposited = s.principalDeposited ∧
      s'.totalPrincipal = s.totalPrincipal ∧
      s'.paused = s.paused ∧ s'.owner = s.owner ∧
      s'.shareAllowance = s.shareAllowance ∧
      s'.lastRebalanceBlock = s.lastRebalanceBlock := by
  unfold depositToProtocol at h
  split at h
  · exact Except.noConfusion h
  · rename_i ad hm
    split at h
    · exact Except.noConfusion h
    · rename_i hlt
      injection h with h'
      subst h'
      exact ⟨ad, hm, by omega, rfl, rfl, rfl, rfl, rfl, rfl, rfl, rfl, rfl, rfl, rfl, rfl⟩

theorem withdrawFromProtocol_ok {amount : Nat} {s s' : VaultState Addr}
    (h : withdrawFromProtocol amount s = .ok s') :
    ∃ ad, s.adapters s.activeProtocol = some ad ∧ amount ≤ ad.bal ∧
      s'.idleAssets = s.idleAssets + amount ∧
      s'.adapters = Function.update s.adapters s.activeProtocol
        (some { ad with bal := ad.bal - amount }) ∧
      s'.balanceOf = s.balanceOf ∧ s'.totalSupply = s.totalSupply ∧
      s'.assetBalanceOf = s.assetBalanceOf ∧
      s'.activeProtocol = s.activeProtocol ∧
      s'.principalDeposited = s.principalDeposited ∧
      s'.totalPrincipal = s.totalPrincipal ∧
      s'.paused = s.paused ∧ s'.owner = s.owner ∧
      s'.shareAllowance = s.shareAllowance ∧
      s'.lastRebalanceBlock = s.lastRebalanceBlock := by
  unfold withdrawFromProtocol at h
  split at h
  · exact Except.noConfusion h
  · rename_i ad hm
    split at h
    · exact Except.noConfusion h
    · rename_i hlt
      injection h with h'
      subst h'
      exact ⟨ad, hm, by omega, rfl, rfl, rfl, rfl, rfl, rfl, rfl, rfl, rfl, rfl, rfl, rfl⟩

theorem superDeposit_ok {caller receiver : Addr} {assets : Nat}
    {s s' : VaultState Addr} {sh : Nat}
    (h : superDeposit caller assets receiver s = .ok (s', sh)) :
    sh = previewDeposit s assets ∧ assets ≤ s.assetBalanceOf caller ∧
    s'.balanceOf = Function.update s.balanceOf receiver (s.balanceOf receiver + sh) ∧
    s'.totalSupply = s.totalSupply + sh ∧
    s'.assetBalanceOf = Function.update s.assetBalanceOf caller
      (s.assetBalanceOf caller - assets) ∧
    s'.idleAssets = s.idleAssets + assets ∧
    s'.activeProtocol = s.activeProtocol ∧ s'.adapters = s.adapters ∧
    s'.principalDeposited = s.principalDeposited ∧
    s'.totalPrincipal = s.totalPrincipal ∧
    s'.paused = s.paused ∧ s'.owner = s.owner ∧
    s'.shareAllowance = s.shareAllowance ∧
    s'.lastRebalanceBlock = s.lastRebalanceBlock := by
  unfold superDeposit at h
  split at h
  · exact Except.noConfusion h
  · rename_i hlt
    injection h with h'
    obtain ⟨h₁, h₂⟩ := Prod.mk.injEq .. |>.mp h'
    subst h₁
    subst h₂
    exact ⟨rfl, by omega, rfl, rfl, rfl, rfl, rfl, rfl, rfl, rfl, rfl, rfl, rfl, rfl⟩

theorem spendAllowance_ok {owner spender : Addr} {value : Nat}
    {s s' : VaultState Addr} (h : spendAllowance owner spender value s = .ok s') :
    s'.balanceOf = s.balanceOf ∧ s'.totalSupply = s.totalSupply ∧
    s'.assetBalanceOf = s.assetBalanceOf ∧ s'.idleAssets = s.idleAssets ∧
    s'.activeProtocol = s.activeProtocol ∧ s'.adapters = s.adapters ∧
    s'.principalDeposited = s.principalDeposited ∧
    s'.totalPrincipal = s.totalPrincipal ∧
    s'.paused = s.paused ∧ s'.owner = s.owner ∧
    s'.lastRebalanceBlock = s.lastRebalanceBlock := by
  unfold spendAllowance at h
  split at h
  · injection h with h'
    subst h'
    exact ⟨rfl, rfl, rfl, rfl, rfl, rfl, rfl, rfl, rfl, rfl, rfl⟩
  · split at h
    · exact Except.noConfusion h
    · injection h with h'
      subst h'
      exact ⟨rfl, rfl, rfl, rfl, rfl, rfl, rfl, rfl, rfl, rfl, rfl⟩

theorem burnAndTransfer_ok {receiver owner : Addr} {assets shares : Nat}
    {s s' : VaultState Addr} {sh : Nat}
    (h : burnAndTransfer assets receiver owner shares s = .ok (s', sh)) :
    sh = shares ∧ shares ≤ s.balanceOf owner ∧
    s'.balanceOf = Function.update s.balanceOf owner (s.balanceOf owner - shares) ∧
    s'.totalSupply = s.totalSupply - shares ∧
    s'.idleAssets = s.idleAssets - assets ∧
    s'.assetBalanceOf = Function.update s.assetBalanceOf receiver
      (s.assetBalanceOf receiver + assets) ∧
    s'.activeProtocol = s.activeProtocol ∧ s'.adapters = s.adapters ∧
    s'.principalDeposited = s.principalDeposited ∧
    s'.totalPrincipal = s.totalPrincipal ∧
    s'.paused = s.paused ∧ s'.owner = s.owner ∧
    s'.shareAllowance = s.shareAllowance ∧
    s'.lastRebalanceBlock = s.lastRebalanceBlock := by
  unfold burnAndTransfer at h
  split at h
  · exact Except.noConfusion h
  · rename_i hbal
    dsimp only at h
    split at h
    · exact Except.noConfusion h
    · rename_i hidle
      injection h with h'
      obtain ⟨h₁, h₂⟩ := Prod.mk.injEq .. |>.mp h'
      subst h₁
      subst h₂
      exact ⟨rfl, by omega, rfl, rfl, rfl, rfl, rfl, rfl, rfl, rfl, rfl, rfl, rfl, rfl⟩

theorem superWithdraw_ok {caller receiver owner : Addr} {assets : Nat}
    {s s' : VaultState Addr} {sh : Nat}
    (h : superWithdraw caller assets receiver owner s = .ok (s', sh)) :
    sh = previewWithdraw s assets ∧ assets ≤ maxWithdraw s owner ∧
    s'.activeProtocol = s.activeProtocol ∧ s'.adapters = s.adapters ∧
    s'.principalDeposited = s.principalDeposited ∧
    s'.totalPrincipal = s.totalPrincipal ∧
    s'.paused = s.paused ∧ s'.owner = s.owner ∧
    s'.lastRebalanceBlock = s.lastRebalanceBlock := by
  unfold superWithdraw at h
  split at h
  · exact Except.noConfusion h
  · rename_i hmax
    dsimp only at h
    split at h
    · rename_i hco
      obtain ⟨e₁, _, _, _, _, _, eap, ead, epd, etp, ep, eo, _, el⟩ :=
        burnAndTransfer_ok h
      exact ⟨e₁, by omega, eap, ead, epd, etp, ep, eo, el⟩
    · rename_i hco
      split at h
      · exact Except.noConfusion h
      · rename_i s₁ hsp
        obtain ⟨eb, ets, eab, ei, eap₁, ead₁, epd₁, etp₁, ep₁, eo₁, el₁⟩ :=
          spendAllowance_ok hsp
        obtain ⟨e₁, _, _, _, _, _, eap, ead, epd, etp, ep, eo, _, el⟩ :=
          burnAndTransfer_ok h
        refine ⟨?_, by omega, ?_, ?_, ?_, ?_, ?_, ?_, ?_⟩
        · rw [e₁]
        · rw [eap, eap₁]
        · rw [ead, ead₁]
        · rw [epd, epd₁]
        · rw [etp, etp₁]
        · rw [ep, ep₁]
        · rw [eo, eo₁]
        · rw [el, el₁]

theorem solSub_ok {a b c : Nat} (h : solSub a b = .ok c) : b ≤ a ∧ c = a - b := by
  unfold solSub at h
  split at h
  · exact Except.noConfusion h
  · rename_i hlt
    injection h with h'
    exact ⟨by omega, h'.symm⟩

theorem solDiv_ok {a b c : Nat} (h : solDiv a b = .ok c) : b ≠ 0 ∧ c = a / b := by
  unfold solDiv at h
  split at h
  · exact Except.noConfusion h
  · rename_i hz
    injection h with h'
    exact ⟨hz, h'.symm⟩

theorem deposit_ok_effects {caller receiver : Addr} {assets : Nat}
    {s s' : VaultState Addr} {shares : Nat}
    (h : deposit caller assets receiver s = .ok (s', shares)) :
    s.paused = false ∧ shares = previewDeposit s assets ∧
    assets ≤ s.assetBalanceOf caller ∧
    s'.balanceOf = Function.update s.balanceOf receiver (s.balanceOf receiver + shares) ∧
    s'.totalSupply = s.totalSupply + shares ∧
    s'.principalDeposited = Function.update s.principalDeposited receiver
      (s.principalDeposited receiver + assets) ∧
    s'.totalPrincipal = s.totalPrincipal + assets ∧
    s'.activeProtocol = s.activeProtocol ∧
    s'.idleAssets = s.idleAssets ∧
    ∃ ad, s.adapters s.activeProtocol = some ad ∧
      s'.adapters = Function.update s.adapters s.activeProtocol
        (some { ad with bal := ad.bal + assets }) := by
  unfold deposit at h
  split at h
  · exact Except.noConfusion h
  · rename_i hp
    split at h
    · exact Except.noConfusion h
    · rename_i s₁ sh₁ hsd
      dsimp only at h
      split at h
      · exact Except.noConfusion h
      · rename_i s₃ hdp
        injection h with h'
        obtain ⟨h₁, h₂⟩ := Prod.mk.injEq .. |>.mp h'
        subst h₁
        subst h₂
        obtain ⟨e₁, hle, eb, ets, eab, ei, eap, ead, epd, etp, ep, eo, esa, el⟩ :=
          superDeposit_ok hsd
        obtain ⟨ad, hm, hle₂, di, da, db, dts, dab, dap, dpd, dtp, dp, dow, dsa, dl⟩ :=
          depositToProtocol_ok hdp
        subst e₁
        refine ⟨by simpa using hp, rfl, hle, ?_, ?_, ?_, ?_, ?_, ?_, ?_⟩
        · rw [db]
          exact eb
        · rw [dts]
          exact ets
        · rw [dpd]
          dsimp only
          rw [epd]
        · rw [dtp]
          dsimp only
          rw [etp]
        · rw [dap]
          dsimp only
          rw [eap]
        · rw [di]
          dsimp only
          rw [ei]
          omega
        · refine ⟨ad, ?_, ?_⟩
          · rw [← ead, ← eap]
            exact hm
          · rw [da]
            dsimp only
            rw [ead, eap]

theorem withdraw_ok_principal {caller receiver owner : Addr} {assets : Nat}
    {s s' : VaultState Addr} {sh : Nat}
    (h : withdraw caller assets receiver owner s = .ok (s', sh)) :
    ∃ r, r ≤ s.principalDeposited owner ∧ r ≤ s.totalPrincipal ∧
      s'.principalDeposited = Function.update s.principalDeposited owner
        (s.principalDeposited owner - r) ∧
      s'.totalPrincipal = s.totalPrincipal - r := by
  unfold withdraw at h
  dsimp only at h
  split at h
  · exact Except.noConfusion h
  · rename_i s₁ hwp
    split at h
    · exact Except.noConfusion h
    · rename_i ptr hdiv
      split at h
      · exact Except.noConfusion h
      · rename_i p₁ hsub₁
        split at h
        · exact Except.noConfusion h
        · rename_i tp₁ hsub₂
          obtain ⟨_, _, _, _, epd, etp, _, _, _⟩ := superWithdraw_ok h
          obtain ⟨ad, hm, hle, wi, wa, wb, wts, wab, wap, wpd, wtp, wp, wo, wsa, wl⟩ :=
            withdrawFromProtocol_ok hwp
          obtain ⟨hle₁, hp₁⟩ := solSub_ok hsub₁
          obtain ⟨hle₂, hp₂⟩ := solSub_ok hsub₂
          subst hp₁
          subst hp₂
          rw [wpd] at hle₁
          rw [wtp] at hle₂
          refine ⟨ptr, hle₁, hle₂, ?_, ?_⟩
          · rw [epd]
            dsimp only
            rw [wpd]
          · rw [etp]
            dsimp only
            rw [wtp]

theorem rebalance_ok_fields {caller : Addr} {target : Protocol}
    {expectedGain gasCost blk : Nat} {s s' : VaultState Addr}
    (h : rebalance caller target expectedGain gasCost blk s = .ok s') :
    s'.principalDeposited = s.principalDeposited ∧
    s'.totalPrincipal = s.totalPrincipal ∧
    s'.balanceOf = s.balanceOf ∧ s'.totalSupply = s.totalSupply ∧
    s'.activeProtocol = target := by
  unfold rebalance at h
  split at h
  · exact Except.noConfusion h
  · split at h
    · exact Except.noConfusion h
    · split at h
      · exact Except.noConfusion h
      · split at h
        · exact Except.noConfusion h
        · dsimp only at h
          split at h
          · exact Except.noConfusion h
          · rename_i s₁ hwp
            split at h
            · exact Except.noConfusion h
            · rename_i s₃ hdp
              injection h with h'
              subst h'
              obtain ⟨ad, hm, hle, wi, wa, wb, wts, wab, wap, wpd, wtp, wp, wo, wsa, wl⟩ :=
                withdrawFromProtocol_ok hwp
              obtain ⟨ad₂, dm, dle, di, da, db, dts, dab, dap, dpd, dtp, dp, dow, dsa, dl⟩ :=
                depositToProtocol_ok hdp
              refine ⟨?_, ?_, ?_, ?_, ?_⟩
              · rw [show ({ s₃ with lastRebalanceBlock := blk } :
                    VaultState Addr).principalDeposited = s₃.principalDeposited from rfl,
                  dpd]
                dsimp only
                rw [wpd]
              · rw [show ({ s₃ with lastRebalanceBlock := blk } :
                    VaultState Addr).totalPrincipal = s₃.totalPrincipal from rfl, dtp]
                dsimp only
                rw [wtp]
              · rw [show ({ s₃ with lastRebalanceBlock := blk } :
                    VaultState Addr).balanceOf = s₃.balanceOf from rfl, db]
                dsimp only
                rw [wb]
              · rw [show ({ s₃ with lastRebalanceBlock := blk } :
                    VaultState Addr).totalSupply = s₃.totalSupply from rfl, dts]
                dsimp only
                rw [wts]
              · rw [show ({ s₃ with lastRebalanceBlock := blk } :
                    VaultState Addr).activeProtocol = s₃.activeProtocol from rfl, dap]

theorem setAdapter_ok_fields {caller : Addr} {protocol : Protocol}
    {adapter : Option AdapterState} {s s' : VaultState Addr}
    (h : setAdapter caller protocol adapter s = .ok s') :
    s'.principalDeposited = s.principalDeposited ∧
    s'.totalPrincipal = s.totalPrincipal := by
  unfold setAdapter at h
  split at h
  · exact Except.noConfusion h
  · split at h
    · exact Except.noConfusion h
    · injection h with h'
      subst h'
      exact ⟨rfl, rfl⟩

theorem pause_ok_fields {caller : Addr} {s s' : VaultState Addr}
    (h : pause caller s = .ok s') :
    s'.principalDeposited = s.principalDeposited ∧
    s'.totalPrincipal = s.totalPrincipal := by
  unfold pause at h
  split at h
  · exact Except.noConfusion h
  · split at h
    · exact Except.noConfusion h
    · injection h with h'
      subst h'
      exact ⟨rfl, rfl⟩

theorem unpause_ok_fields {caller : Addr} {s s' : VaultState Addr}
    (h : unpause caller s = .ok s') :
    s'.principalDeposited = s.principalDeposited ∧
    s'.totalPrincipal = s.totalPrincipal := by
  unfold unpause at h
  split at h
  · exact Except.noConfusion h
  · split at h
    · injection h with h'
      subst h'
      exact ⟨rfl, rfl⟩
    · exact Except.noConfusion h

end VaultLemmas

/-! ## Claim theorems: vault -/

/-- C1: the claim states that every non-owner call to `rebalance` fails with
the Unauthorized signal and changes no state.  The code violates it:
`rebalance` carries no `onlyOwner` (or any caller) check, so account `1`,
which is not the owner of `demoVault`, successfully rebalances the whole
vault to Morpho.  This theorem evaluates the code at that failing input. -/
theorem C1_rebalance_missing_access_control :
    (1 : Nat) ≠ demoVault.owner ∧
    ∃ s', rebalance 1 Protocol.MORPHO 50 5 7 demoVault = .ok s' ∧
      s'.activeProtocol = Protocol.MORPHO ∧
      s'.adapters Protocol.MORPHO = some ⟨1000, 420⟩ :=
  ⟨by decide, _, rfl, rfl, rfl⟩

/-- C2 (amended): on a vault that is not paused, the reallocation gate checks
its three preconditions in order with distinct signals
(`InsufficientYieldGain`, `GasCostTooHigh`, `NoFundsToRebalance`), and
`rebalance(id, 50, 5)` succeeds and flips `activeProtocol` to `id` whenever
additionally the active adapter is bound and holds the entire balance (no
idle assets) and the target adapter slot is bound. -/
theorem C2_reallocation_gate {Addr : Type} [DecidableEq Addr]
    (s : VaultState Addr) (caller : Addr) (target : Protocol)
    (expectedGain gasCost blk : Nat) (hp : s.paused = false) :
    (expectedGain < 30 →
      rebalance caller target expectedGain gasCost blk s =
        .error .InsufficientYieldGain) ∧
    (30 ≤ expectedGain → 10 < gasCost →
      rebalance caller target expectedGain gasCost blk s =
        .error .GasCostTooHigh) ∧
    (30 ≤ expectedGain → gasCost ≤ 10 → totalAssets s = 0 →
      rebalance caller target expectedGain gasCost blk s =
        .error .NoFundsToRebalance) ∧
    (∀ ad tad, s.adapters s.activeProtocol = some ad → s.idleAssets = 0 →
      s.adapters target = some tad → totalAssets s ≠ 0 →
      ∃ s', rebalance caller target 50 5 blk s = .ok s' ∧
        s'.activeProtocol = target) := by
  refine ⟨?_, ?_, ?_, ?_⟩
  · intro h₁
    unfold rebalance
    rw [hp]
    simp only [Bool.false_eq_true, if_false]
    rw [if_pos (by unfold MIN_REBALANCE_THRESHOLD; omega)]
  · intro h₁ h₂
    unfold rebalance
    rw [hp]
    simp only [Bool.false_eq_true, if_false]
    rw [if_neg (by unfold MIN_REBALANCE_THRESHOLD; omega),
      if_pos (by unfold MAX_GAS_COST_THRESHOLD; omega)]
  · intro h₁ h₂ h₃
    unfold rebalance
    rw [hp]
    simp only [Bool.false_eq_true, if_false]
    rw [if_neg (by unfold MIN_REBALANCE_THRESHOLD; omega),
      if_neg (by unfold MAX_GAS_COST_THRESHOLD; omega),
      if_pos h₃]
  · intro ad tad hm hidle htad hnz
    have hta : totalAssets s = ad.bal := by
      unfold totalAssets
      rw [hm]
      dsimp only
      rw [hidle]
      omega
    unfold rebalance
    rw [hp]
    simp only [Bool.false_eq_true, if_false]
    rw [if_neg (by unfold MIN_REBALANCE_THRESHOLD; omega),
      if_neg (by unfold MAX_GAS_COST_THRESHOLD; omega),
      if_neg hnz]
    unfold withdrawFromProtocol
    rw [hm]
    dsimp only
    rw [if_neg (by omega : ¬ ad.bal < totalAssets s)]
    unfold depositToProtocol
    dsimp only
    rcases eq_or_ne target s.activeProtocol with he | he
    · rw [he, Function.update_same]
      dsimp only
      rw [if_neg (by omega : ¬ s.idleAssets + totalAssets s < totalAssets s)]
      exact ⟨_, rfl, rfl⟩
    · rw [Function.update_noteq he, htad]
      dsimp only
      rw [if_neg (by omega : ¬ s.idleAssets + totalAssets s < totalAssets s)]
      exact ⟨_, rfl, rfl⟩

/-- Witness for C2: on the funded, unpaused `demoVault`, `rebalance(_, 20, 5)`
fails with `InsufficientYieldGain`, `rebalance(_, 50, 15)` fails with
`GasCostTooHigh`, and `rebalance(MORPHO, 50, 5)` succeeds and activates
Morpho. -/
theorem C2_reallocation_gate_witness :
    rebalance 0 Protocol.MORPHO 20 5 7 demoVault = .error .InsufficientYieldGain ∧
    rebalance 0 Protocol.MORPHO 50 15 7 demoVault = .error .GasCostTooHigh ∧
    ∃ s', rebalance 0 Protocol.MORPHO 50 5 7 demoVault = .ok s' ∧
      s'.activeProtocol = Protocol.MORPHO := by
  refine ⟨?_, ?_, ?_⟩
  · exact (C2_reallocation_gate demoVault 0 Protocol.MORPHO 20 5 7 rfl).1 (by decide)
  · exact (C2_reallocation_gate demoVault 0 Protocol.MORPHO 50 15 7 rfl).2.1
      (by decide) (by decide)
  · exact (C2_reallocation_gate demoVault 0 Protocol.MORPHO 50 5 7 rfl).2.2.2
      ⟨1000, 350⟩ ⟨0, 420⟩ rfl rfl rfl (by decide)

/-- Counterexample for C2 as stated ("`reallocate(id, 50, 5)` on a vault with
`totalAssets() > 0` always succeeds"): each amendment hypothesis is forced by
a failing state with positive assets — a paused vault is rejected by the
pause gate; a vault with idle assets fails because the full balance is
withdrawn from the adapter that holds only part of it; a vault with no
adapter bound fails at the adapter call; and an unbound target slot fails at
the deposit leg. -/
theorem C2_counterexample :
    (totalAssets pausedVault ≠ 0 ∧
      rebalance 0 Protocol.MORPHO 50 5 7 pausedVault = .error .EnforcedPause) ∧
    (totalAssets idleVault ≠ 0 ∧ idleVault.paused = false ∧
      rebalance 0 Protocol.MORPHO 50 5 7 idleVault
        = .error .AdapterInsufficientBalance) ∧
    (totalAssets bareVault ≠ 0 ∧ bareVault.paused = false ∧
      rebalance 0 Protocol.MORPHO 50 5 7 bareVault = .error .AdapterNotSet) ∧
    (totalAssets demoVault ≠ 0 ∧ demoVault.paused = false ∧
      rebalance 0 Protocol.MOONWELL 50 5 7 demoVault = .error .AdapterNotSet) :=
  ⟨⟨by decide, rfl⟩, ⟨by decide, rfl, rfl⟩, ⟨by decide, rfl, rfl⟩,
    ⟨by decide, rfl, rfl⟩⟩

/-- C3: every operation of the vault and of the registry is atomic on
failure: a failing step leaves the state exactly as it was (this is the EVM
rollback captured by `vaultExec`/`regExec`); in particular a failed
`rebalance` leaves `activeProtocol` unchanged, a failed `deposit` changes
nothing (no shares minted, no principal recorded), and a failed
`validateSessionKey` leaves every stored grant — hence every
`transactionCount` — unchanged. -/
theorem C3_failure_atomicity {Addr : Type} [DecidableEq Addr]
    (op : VaultOp Addr) (s : VaultState Addr)
    (recover : Hash → Sig → Address) (rop : RegOp) (t : RegState) :
    (∀ e, vaultStep op s = .error e → vaultExec op s = s) ∧
    (∀ e, regStep recover rop t = .error e → regExec recover rop t = t) ∧
    (∀ e caller target expectedGain gasCost blk,
      rebalance caller target expectedGain gasCost blk s = .error e →
      (vaultExec (.rebalance caller target expectedGain gasCost blk) s).activeProtocol
        = s.activeProtocol) ∧
    (∀ e caller assets receiver,
      deposit caller assets receiver s = .error e →
      vaultExec (.deposit caller assets receiver) s = s) ∧
    (∀ e keyId target functionSelector value signature messageHash now,
      validateSessionKey recover keyId target functionSelector value signature
        messageHash now t = .error e →
      (regExec recover (.validate keyId target functionSelector value signature
        messageHash now) t).sessionKeys = t.sessionKeys) := by
  refine ⟨?_, ?_, ?_, ?_, ?_⟩
  · intro e he
    unfold vaultExec
    rw [he]
  · intro e he
    unfold regExec
    rw [he]
  · intro e c tg g co blk he
    unfold vaultExec vaultStep
    dsimp only
    rw [he]
  · intro e c a r he
    unfold vaultExec vaultStep
    dsimp only
    rw [he]
    rfl
  · intro e keyId target functionSelector value signature messageHash now he
    unfold regExec regStep
    dsimp only
    rw [he]
    rfl

/-- Witness for C3: a deposit rejected by the pause gate leaves `pausedVault`
untouched, and a `validate` against a revoked grant leaves `revokedReg`
untouched. -/
theorem C3_failure_atomicity_witness :
    vaultExec (VaultOp.deposit 1 50 1) pausedVault = pausedVault ∧
    regExec demoRecover (RegOp.validate demoKey 7 1 0 5 0 150) revokedReg
      = revokedReg := by
  refine ⟨?_, ?_⟩
  · exact (C3_failure_atomicity (VaultOp.deposit 1 50 1) pausedVault demoRecover
      (RegOp.validate demoKey 7 1 0 5 0 150) revokedReg).1 .EnforcedPause rfl
  · exact (C3_failure_atomicity (VaultOp.deposit 1 50 1) pausedVault demoRecover
      (RegOp.validate demoKey 7 1 0 5 0 150) revokedReg).2.1 .SessionKeyNotActive rfl

/-- C9 (amended): whenever the active adapter is bound and can supply the
requested amount (in particular for `amount = 0`), a `withdraw` on behalf of
an owner holding zero shares aborts with the Solidity division-by-zero panic
(0x12) raised by the proportional principal reduction — a signal outside the
spec's error taxonomy. -/
theorem C9_zero_share_withdraw_division_panic {Addr : Type} [DecidableEq Addr]
    (caller receiver owner : Addr) (assets : Nat) (s : VaultState Addr)
    (ad : AdapterState) (hm : s.adapters s.activeProtocol = some ad)
    (hle : assets ≤ ad.bal) (hz : s.balanceOf owner = 0) :
    withdraw caller assets receiver owner s = .error .DivisionByZero := by
  unfold withdraw withdrawFromProtocol
  dsimp only
  rw [hm]
  dsimp only
  rw [if_neg (by omega : ¬ ad.bal < assets)]
  dsimp only
  unfold solDiv
  rw [hz]
  simp

/-- Witness for C9: on `demoVault`, account `3` holds no shares, and both a
zero withdrawal and a 600-unit withdrawal on its behalf abort with the
division-by-zero panic. -/
theorem C9_zero_share_withdraw_division_panic_witness :
    demoVault.balanceOf 3 = 0 ∧
    withdraw 3 0 3 3 demoVault = .error .DivisionByZero ∧
    withdraw 3 600 3 3 demoVault = .error .DivisionByZero :=
  ⟨rfl,
    C9_zero_share_withdraw_division_panic 3 3 3 0 demoVault ⟨1000, 350⟩ rfl
      (by decide) rfl,
    C9_zero_share_withdraw_division_panic 3 3 3 600 demoVault ⟨1000, 350⟩ rfl
      (by decide) rfl⟩

/-- Counterexample for C9 as stated ("for every amount"): with the owner's
share balance still zero, a withdrawal of 10000 — more than the adapter
holds — aborts in the adapter (`require(_balance >= amount)`) before the
division is reached, so the abort is not the division-by-zero panic; and on
a vault with no adapter bound even `withdraw(0, ...)` aborts at the adapter
call instead. -/
theorem C9_counterexample :
    (demoVault.balanceOf 3 = 0 ∧
      withdraw 3 10000 3 3 demoVault = .error .AdapterInsufficientBalance ∧
      VaultError.AdapterInsufficientBalance ≠ VaultError.DivisionByZero) ∧
    (bareVault.balanceOf 3 = 0 ∧
      withdraw 3 0 3 3 bareVault = .error .AdapterNotSet ∧
      VaultError.AdapterNotSet ≠ VaultError.DivisionByZero) :=
  ⟨⟨rfl, rfl, by decide⟩, ⟨rfl, rfl, by decide⟩⟩

/-! ## Principal-sum bookkeeping -/

theorem sum_update_add {Addr : Type} [DecidableEq Addr] [Fintype Addr]
    (f : Addr → Nat) (r : Addr) (x : Nat) :
    ∑ a, Function.update f r (f r + x) a = (∑ a, f a) + x := by
  rw [Finset.sum_update_of_mem (Finset.mem_univ r),
    Finset.sdiff_singleton_eq_erase,
    ← Finset.add_sum_erase Finset.univ f (Finset.mem_univ r)]
  omega

theorem sum_update_sub {Addr : Type} [DecidableEq Addr] [Fintype Addr]
    (f : Addr → Nat) (r : Addr) (x : Nat) (hx : x ≤ f r) :
    ∑ a, Function.update f r (f r - x) a = (∑ a, f a) - x := by
  rw [Finset.sum_update_of_mem (Finset.mem_univ r),
    Finset.sdiff_singleton_eq_erase,
    ← Finset.add_sum_erase Finset.univ f (Finset.mem_univ r)]
  omega

/-- C4: `sum(principal[*]) == totalPrincipal` holds in the constructor state
and is preserved by every vault operation — by every successful step, and
(through the rollback semantics) by every failed one — hence by every
sequence of calls. -/
theorem C4_principal_sum_invariant {Addr : Type} [DecidableEq Addr] [Fintype Addr]
    (deployer : Addr) (usdc : Addr → Nat) (ops : List (VaultOp Addr)) :
    principalInv (initialVault deployer usdc) ∧
    (∀ (s s' : VaultState Addr) (op : VaultOp Addr),
      vaultStep op s = .ok s' → principalInv s → principalInv s') ∧
    (∀ (s : VaultState Addr) (op : VaultOp Addr),
      principalInv s → principalInv (vaultExec op s)) ∧
    principalInv (ops.foldl (fun u op => vaultExec op u) (initialVault deployer usdc)) := by
  have hinit : principalInv ((initialVault deployer usdc : VaultState Addr)) := by
    show (∑ _a : Addr, (0 : Nat)) = 0
    simp
  have hstep : ∀ (s s' : VaultState Addr) (op : VaultOp Addr),
      vaultStep op s = .ok s' → principalInv s → principalInv s' := by
    intro s s' op h hinv
    have hinv' : (∑ a, s.principalDeposited a) = s.totalPrincipal := hinv
    cases op with
    | deposit caller assets receiver =>
        unfold vaultStep at h
        dsimp only at h
        cases hd : deposit caller assets receiver s with
        | error e => rw [hd] at h; exact Except.noConfusion h
        | ok p =>
            obtain ⟨s₁, sh⟩ := p
            rw [hd] at h
            simp only [Except.map, Except.ok.injEq] at h
            subst h
            obtain ⟨_, _, _, _, _, epd, etp, _, _, _⟩ := deposit_ok_effects hd
            show (∑ a, s₁.principalDeposited a) = s₁.totalPrincipal
            rw [epd, etp, sum_update_add, hinv']
    | withdraw caller assets receiver owner =>
        unfold vaultStep at h
        dsimp only at h
        cases hd : withdraw caller assets receiver owner s with
        | error e => rw [hd] at h; exact Except.noConfusion h
        | ok p =>
            obtain ⟨s₁, sh⟩ := p
            rw [hd] at h
            simp only [Except.map, Except.ok.injEq] at h
            subst h
            obtain ⟨r, hr₁, hr₂, epd, etp⟩ := withdraw_ok_principal hd
            show (∑ a, s₁.principalDeposited a) = s₁.totalPrincipal
            rw [epd, etp, sum_update_sub _ _ _ hr₁, hinv']
    | rebalance caller target expectedGain gasCost blk =>
        unfold vaultStep at h
        dsimp only at h
        obtain ⟨epd, etp, _, _, _⟩ := rebalance_ok_fields h
        show (∑ a, s'.principalDeposited a) = s'.totalPrincipal
        rw [epd, etp, hinv']
    | setAdapter caller protocol adapter =>
        unfold vaultStep at h
        dsimp only at h
        obtain ⟨epd, etp⟩ := setAdapter_ok_fields h
        show (∑ a, s'.principalDeposited a) = s'.totalPrincipal
        rw [epd, etp, hinv']
    | pause caller =>
        unfold vaultStep at h
        dsimp only at h
        obtain ⟨epd, etp⟩ := pause_ok_fields h
        show (∑ a, s'.principalDeposited a) = s'.totalPrincipal
        rw [epd, etp, hinv']
    | unpause caller =>
        unfold vaultStep at h
        dsimp only at h
        obtain ⟨epd, etp⟩ := unpause_ok_fields h
        show (∑ a, s'.principalDeposited a) = s'.totalPrincipal
        rw [epd, etp, hinv']
  have hexec : ∀ (s : VaultState Addr) (op : VaultOp Addr),
      principalInv s → principalInv (vaultExec op s) := by
    intro s op hinv
    unfold vaultExec
    cases hv : vaultStep op s with
    | ok s₁ => exact hstep s s₁ op hv hinv
    | error e => exact hinv
  have hfold : ∀ (l : List (VaultOp Addr)) (u : VaultState Addr), principalInv u →
      principalInv (l.foldl (fun v op => vaultExec op v) u) := by
    intro l
    induction l with
    | nil => intro u hu; exact hu
    | cons op l ih => intro u hu; exact ih _ (hexec u op hu)
  exact ⟨hinit, hstep, hexec, hfold ops _ hinit⟩

/-- Witness for C4: the invariant evaluates to true after a concrete deposit
on a two-address vault, and after a concrete adapter set-up plus deposit
sequence. -/
theorem C4_principal_sum_invariant_witness :
    principalInv (vaultExec (VaultOp.deposit 1 50 1)
      (initialVault (0 : Fin 2) (fun _ => 100))) ∧
    principalInv (([VaultOp.setAdapter 0 Protocol.AAVE (some ⟨0, 350⟩),
        VaultOp.deposit 1 50 1] : List (VaultOp (Fin 2))).foldl
      (fun u op => vaultExec op u) (initialVault 0 (fun _ => 100))) :=
  ⟨(C4_principal_sum_invariant (0 : Fin 2) (fun _ => 100) []).2.2.1 _
      (VaultOp.deposit 1 50 1) (by decide),
   (C4_principal_sum_invariant (0 : Fin 2) (fun _ => 100)
      [VaultOp.setAdapter 0 Protocol.AAVE (some ⟨0, 350⟩),
        VaultOp.deposit 1 50 1]).2.2.2⟩

/-- C5 (amended): a successful `deposit` mints
`assets * (totalSupply + 1) / (totalAssets + 1)` shares — the OpenZeppelin
v5 virtual-offset formula, not the claimed `assets * totalShares /
totalAssets` — which degenerates to a 1:1 mint on an empty vault; and a
deposit of X into an empty vault satisfies the round-trip
`convertToAssets(sharesOf(receiver)) == X`. -/
theorem C5_deposit_share_formula {Addr : Type} [DecidableEq Addr]
    (s : VaultState Addr) (caller receiver : Addr) (assets : Nat)
    (s' : VaultState Addr) (shares : Nat)
    (h : deposit caller assets receiver s = .ok (s', shares)) :
    shares = assets * (s.totalSupply + 1) / (totalAssets s + 1) ∧
    s'.balanceOf receiver = s.balanceOf receiver + shares ∧
    s'.totalSupply = s.totalSupply + shares ∧
    (s.totalSupply = 0 → totalAssets s = 0 → shares = assets) ∧
    (s.totalSupply = 0 → totalAssets s = 0 → s.balanceOf receiver = 0 →
      convertToAssets s' (s'.balanceOf receiver) = assets) := by
  obtain ⟨hp, hsh, hable, eb, ets, epd, etp, eap, ei, ad, hm, ead⟩ :=
    deposit_ok_effects h
  have hshares : shares = assets * (s.totalSupply + 1) / (totalAssets s + 1) := by
    rw [hsh]
    rfl
  have hbal : s'.balanceOf receiver = s.balanceOf receiver + shares := by
    rw [eb, Function.update_same]
  have hboot : s.totalSupply = 0 → totalAssets s = 0 → shares = assets := by
    intro h₁ h₂
    rw [hshares, h₁, h₂]
    simp
  refine ⟨hshares, hbal, ets, hboot, ?_⟩
  intro h₁ h₂ h₃
  have hsa : shares = assets := hboot h₁ h₂
  have hta' : totalAssets s' = assets := by
    have hz : s.idleAssets = 0 ∧ ad.bal = 0 := by
      unfold totalAssets at h₂
      rw [hm] at h₂
      dsimp only at h₂
      omega
    unfold totalAssets
    rw [ead, eap, Function.update_same, ei]
    dsimp only
    omega
  unfold convertToAssets
  rw [hta', hbal, h₃, ets, h₁, hsa]
  simp [Nat.mul_div_cancel]

/-- Witness for C5: depositing 1000 into the empty vault mints exactly 1000
shares and round-trips back to 1000 assets. -/
theorem C5_deposit_share_formula_witness :
    ∃ s', deposit 1 1000 1 emptyVault = .ok (s', 1000) ∧
      convertToAssets s' (s'.balanceOf 1) = 1000 := by
  refine ⟨_, rfl, ?_⟩
  exact (C5_deposit_share_formula emptyVault 1 1 1000 _ 1000 rfl).2.2.2.2 rfl rfl rfl

/-- Counterexample for C5 as stated: on a vault with 10 shares and 13 units
of assets, depositing 9 mints `9 * 11 / 14 = 7` shares, while the claimed
formula `amount * totalShares / totalAssets` gives `9 * 10 / 13 = 6`; and on
a zero-share vault already holding 5 donated units, depositing 9 mints
`9 * 1 / 6 = 1` share, not the claimed 1:1 `amount`. -/
theorem C5_counterexample :
    (0 < yieldVault.totalSupply ∧
      (∃ s', deposit 1 9 1 yieldVault = .ok (s', 7)) ∧
      7 ≠ 9 * yieldVault.totalSupply / totalAssets yieldVault) ∧
    (donatedVault.totalSupply = 0 ∧
      (∃ s', deposit 1 9 1 donatedVault = .ok (s', 1)) ∧ (1 : Nat) ≠ 9) :=
  ⟨⟨by decide, ⟨_, rfl⟩, by decide⟩, ⟨rfl, ⟨_, rfl⟩, by decide⟩⟩

/-! ## Pause-independence of withdraw -/

section PausedIndependence

variable {Addr : Type} [DecidableEq Addr]

theorem withdrawFromProtocol_setPaused (amount : Nat) (s : VaultState Addr)
    (b : Bool) :
    withdrawFromProtocol amount (setPaused s b) =
      (withdrawFromProtocol amount s).map (fun s₁ => setPaused s₁ b) := by
  unfold withdrawFromProtocol setPaused
  dsimp only
  cases hm : s.adapters s.activeProtocol with
  | none => rfl
  | some ad =>
      dsimp only
      by_cases hlt : ad.bal < amount
      · simp only [if_pos hlt, Except.map]
      · simp only [if_neg hlt, Except.map]

theorem spendAllowance_setPaused (owner spender : Addr) (value : Nat)
    (s : VaultState Addr) (b : Bool) :
    spendAllowance owner spender value (setPaused s b) =
      (spendAllowance owner spender value s).map (fun s₁ => setPaused s₁ b) := by
  unfold spendAllowance setPaused
  dsimp only
  cases hm : s.shareAllowance owner spender with
  | none => rfl
  | some a =>
      dsimp only
      by_cases hlt : a < value
      · simp only [if_pos hlt, Except.map]
      · simp only [if_neg hlt, Except.map]

theorem burnAndTransfer_setPaused (assets : Nat) (receiver owner : Addr)
    (shares : Nat) (s : VaultState Addr) (b : Bool) :
    burnAndTransfer assets receiver owner shares (setPaused s b) =
      (burnAndTransfer assets receiver owner shares s).map
        (fun p => (setPaused p.1 b, p.2)) := by
  unfold burnAndTransfer setPaused
  dsimp only
  by_cases h₁ : s.balanceOf owner < shares
  · simp only [if_pos h₁, Except.map]
  · simp only [if_neg h₁]
    by_cases h₂ : s.idleAssets < assets
    · simp only [if_pos h₂, Except.map]
    · simp only [if_neg h₂, Except.map]

theorem superWithdraw_setPaused (caller : Addr) (assets : Nat)
    (receiver owner : Addr) (s : VaultState Addr) (b : Bool) :
    superWithdraw caller assets receiver owner (setPaused s b) =
      (superWithdraw caller assets receiver owner s).map
        (fun p => (setPaused p.1 b, p.2)) := by
  unfold superWithdraw
  dsimp only
  rw [show maxWithdraw (setPaused s b) owner = maxWithdraw s owner from rfl,
    show previewWithdraw (setPaused s b) assets = previewWithdraw s assets from rfl]
  by_cases hmax : maxWithdraw s owner < assets
  · simp only [if_pos hmax, Except.map]
  · simp only [if_neg hmax]
    by_cases hco : caller = owner
    · simp only [if_pos hco]
      exact burnAndTransfer_setPaused assets receiver owner (previewWithdraw s assets) s b
    · simp only [if_neg hco]
      rw [spendAllowance_setPaused]
      cases hsp : spendAllowance owner caller (previewWithdraw s assets) s with
      | error e => rfl
      | ok s₁ =>
          dsimp only [Except.map]
          exact burnAndTransfer_setPaused assets receiver owner
            (previewWithdraw s assets) s₁ b

theorem withdraw_setPaused (caller : Addr) (assets : Nat) (receiver owner : Addr)
    (s : VaultState Addr) (b : Bool) :
    withdraw caller assets receiver owner (setPaused s b) =
      (withdraw caller assets receiver owner s).map
        (fun p => (setPaused p.1 b, p.2)) := by
  unfold withdraw
  dsimp only
  rw [show previewWithdraw (setPaused s b) assets = previewWithdraw s assets from rfl,
    withdrawFromProtocol_setPaused]
  cases hw : withdrawFromProtocol assets s with
  | error e => rfl
  | ok s₁ =>
      dsimp only [Except.map]
      rw [show (setPaused s₁ b).principalDeposited = s₁.principalDeposited from rfl,
        show (setPaused s₁ b).balanceOf = s₁.balanceOf from rfl,
        show (setPaused s₁ b).totalPrincipal = s₁.totalPrincipal from rfl]
      cases hd : solDiv (s₁.principalDeposited owner * previewWithdraw s assets)
          (s₁.balanceOf owner) with
      | error e => rfl
      | ok ptr =>
          dsimp only
          cases hs₁ : solSub (s₁.principalDeposited owner) ptr with
          | error e => rfl
          | ok p₁ =>
              dsimp only
              cases hs₂ : solSub s₁.totalPrincipal ptr with
              | error e => rfl
              | ok tp₁ =>
                  dsimp only
                  exact superWithdraw_setPaused caller assets receiver owner
                    { s₁ with
                      principalDeposited :=
                        Function.update s₁.principalDeposited owner p₁,
                      totalPrincipal := tp₁ } b

end PausedIndependence

/-- C10: `withdraw` is blind to the pause flag — running it from two states
identical except for `paused` gives the same outcome (same error, or same
shares and the same state up to the untouched pause bit) — while `deposit`
and `rebalance` are rejected with the pause signal whenever the vault is
paused. -/
theorem C10_withdraw_pause_independent {Addr : Type} [DecidableEq Addr]
    (caller receiver owner : Addr) (assets : Nat) (s : VaultState Addr)
    (b : Bool) :
    withdraw caller assets receiver owner (setPaused s b) =
      (withdraw caller assets receiver owner s).map
        (fun p => (setPaused p.1 b, p.2)) ∧
    (s.paused = true → deposit caller assets receiver s = .error .EnforcedPause) ∧
    (s.paused = true → ∀ target expectedGain gasCost blk,
      rebalance caller target expectedGain gasCost blk s =
        .error .EnforcedPause) := by
  refine ⟨withdraw_setPaused caller assets receiver owner s b, ?_, ?_⟩
  · intro hp
    unfold deposit
    rw [hp]
    rfl
  · intro hp target expectedGain gasCost blk
    unfold rebalance
    rw [hp]
    rfl

/-- Witness for C10: withdrawing 400 from `demoVault` with the pause bit
forced on gives exactly the pause-bit-adjusted result of the unpaused run,
and a deposit on the paused vault is rejected with the pause signal. -/
theorem C10_withdraw_pause_independent_witness :
    withdraw 1 400 1 1 (setPaused demoVault true) =
      (withdraw 1 400 1 1 demoVault).map (fun p => (setPaused p.1 true, p.2)) ∧
    deposit 1 400 1 pausedVault = .error .EnforcedPause :=
  ⟨(C10_withdraw_pause_independent 1 1 1 400 demoVault true).1,
   (C10_withdraw_pause_independent 1 1 1 400 pausedVault true).2.1 rfl⟩

/-! ## Characterization lemmas for the registry operations -/

theorem grantSessionKey_ok {caller sessionKey target : Address}
    {functionSelector : Selector}
    {valueLimit maxTransactions validAfter validUntil now : Nat}
    {s s' : RegState} {kid : KeyId}
    (h : grantSessionKey caller sessionKey target functionSelector valueLimit
      maxTransactions validAfter validUntil now s = .ok (s', kid)) :
    sessionKey ≠ 0 ∧ target ≠ 0 ∧ validAfter < validUntil ∧ now < validUntil ∧
    kid = ⟨caller, sessionKey, target, functionSelector, validAfter, validUntil⟩ ∧
    s.sessionKeys kid = none ∧
    s'.sessionKeys = Function.update s.sessionKeys kid
      (some { sessionKey := sessionKey, target := target,
              functionSelector := functionSelector, valueLimit := valueLimit,
              maxTransactions := maxTransactions, transactionCount := 0,
              validAfter := validAfter, validUntil := validUntil,
              isActive := true }) ∧
    s'.userSessionKeys = Function.update s.userSessionKeys caller
      (s.userSessionKeys caller ++ [kid]) ∧
    s'.owner = s.owner := by
  unfold grantSessionKey at h
  split at h
  · exact Except.noConfusion h
  · rename_i h₁
    split at h
    · exact Except.noConfusion h
    · rename_i h₂
      split at h
      · exact Except.noConfusion h
      · rename_i h₃
        split at h
        · exact Except.noConfusion h
        · rename_i h₄
          dsimp only at h
          split at h
          · exact Except.noConfusion h
          · rename_i hnone
            injection h with h'
            obtain ⟨hs, hk⟩ := Prod.mk.injEq .. |>.mp h'
            subst hs
            subst hk
            exact ⟨h₁, h₂, not_not.mp h₃, not_not.mp h₄, rfl, hnone, rfl, rfl, rfl⟩

theorem validateSessionKey_ok {recover : Hash → Sig → Address} {keyId : KeyId}
    {target : Address} {functionSelector : Selector} {value : Nat}
    {signature : Sig} {messageHash : Hash} {now : Nat} {s s' : RegState} {r : Bool}
    (h : validateSessionKey recover keyId target functionSelector value signature
      messageHash now s = .ok (s', r)) :
    ∃ d, s.sessionKeys keyId = some d ∧ d.isActive = true ∧
      d.validAfter ≤ now ∧ now ≤ d.validUntil ∧
      d.transactionCount < d.maxTransactions ∧ value ≤ d.valueLimit ∧
      target = d.target ∧ functionSelector = d.functionSelector ∧
      recover messageHash signature = d.sessionKey ∧ r = true ∧
      s'.sessionKeys = Function.update s.sessionKeys keyId
        (some { d with transactionCount := d.transactionCount + 1 }) ∧
      s'.userSessionKeys = s.userSessionKeys ∧ s'.owner = s.owner := by
  unfold validateSessionKey at h
  split at h
  · exact Except.noConfusion h
  · rename_i d hd
    split at h
    · exact Except.noConfusion h
    · rename_i h₁
      split at h
      · exact Except.noConfusion h
      · rename_i h₂
        split at h
        · exact Except.noConfusion h
        · rename_i h₃
          split at h
          · exact Except.noConfusion h
          · rename_i h₄
            split at h
            · exact Except.noConfusion h
            · rename_i h₅
              split at h
              · exact Except.noConfusion h
              · rename_i h₆
                split at h
                · exact Except.noConfusion h
                · rename_i h₇
                  split at h
                  · exact Except.noConfusion h
                  · rename_i h₈
                    injection h with h'
                    obtain ⟨hs, hr⟩ := Prod.mk.injEq .. |>.mp h'
                    subst hs
                    subst hr
                    exact ⟨d, hd, not_not.mp h₁, by omega, by omega, by omega,
                      by omega, not_not.mp h₆, not_not.mp h₇, not_not.mp h₈,
                      rfl, rfl, rfl, rfl⟩

theorem revokeSessionKey_ok {caller : Address} {keyId : KeyId} {s s' : RegState}
    (h : revokeSessionKey caller keyId s = .ok s') :
    ∃ d, s.sessionKeys keyId = some d ∧
      (caller = s.owner ∨ isOwnerOfSessionKey s caller keyId = true) ∧
      s'.sessionKeys = Function.update s.sessionKeys keyId
        (some { d with isActive := false }) ∧
      s'.userSessionKeys = s.userSessionKeys ∧ s'.owner = s.owner := by
  unfold revokeSessionKey at h
  split at h
  · exact Except.noConfusion h
  · rename_i d hd
    split at h
    · exact Except.noConfusion h
    · rename_i hauth
      injection h with h'
      subst h'
      exact ⟨d, hd, not_not.mp hauth, rfl, rfl, rfl⟩

/-! ## Revocation is terminal -/

theorem validate_inactive {recover : Hash → Sig → Address} {t : RegState}
    {k : KeyId} (hrev : revokedAt t k) (target : Address)
    (functionSelector : Selector) (value : Nat) (signature : Sig)
    (messageHash : Hash) (now : Nat) :
    validateSessionKey recover k target functionSelector value signature
      messageHash now t = .error .SessionKeyNotActive := by
  obtain ⟨d, hd, hin⟩ := hrev
  unfold validateSessionKey
  rw [hd]
  dsimp only
  rw [if_pos (by simp [hin])]

theorem revokedAt_exec {recover : Hash → Sig → Address} {t : RegState}
    {k : KeyId} (hrev : revokedAt t k) (op : RegOp) :
    revokedAt (regExec recover op t) k := by
  obtain ⟨d, hd, hin⟩ := hrev
  unfold regExec
  cases hstep : regStep recover op t with
  | error e => exact ⟨d, hd, hin⟩
  | ok t₁ =>
      cases op with
      | grant caller sessionKey target functionSelector valueLimit
          maxTransactions validAfter validUntil now =>
          unfold regStep at hstep
          dsimp only at hstep
          cases hg : grantSessionKey caller sessionKey target functionSelector
              valueLimit maxTransactions validAfter validUntil now t with
          | error e => rw [hg] at hstep; exact Except.noConfusion hstep
          | ok p =>
              obtain ⟨t₂, kid⟩ := p
              rw [hg] at hstep
              simp only [Except.map, Except.ok.injEq] at hstep
              subst hstep
              obtain ⟨_, _, _, _, _, hnone, esk, _, _⟩ := grantSessionKey_ok hg
              rcases eq_or_ne k kid with he | he
              · subst he
                rw [hd] at hnone
                exact Option.noConfusion hnone
              · exact ⟨d, by rw [esk, Function.update_noteq he]; exact hd, hin⟩
      | validate keyId target functionSelector value signature messageHash now =>
          unfold regStep at hstep
          dsimp only at hstep
          cases hv : validateSessionKey recover keyId target functionSelector
              value signature messageHash now t with
          | error e => rw [hv] at hstep; exact Except.noConfusion hstep
          | ok p =>
              obtain ⟨t₂, rb⟩ := p
              rw [hv] at hstep
              simp only [Except.map, Except.ok.injEq] at hstep
              subst hstep
              obtain ⟨d₂, hd₂, hact, _, _, _, _, _, _, _, _, esk, _, _⟩ :=
                validateSessionKey_ok hv
              rcases eq_or_ne k keyId with he | he
              · subst he
                rw [hd] at hd₂
                injection hd₂ with hdd
                subst hdd
                rw [hin] at hact
                exact Bool.noConfusion hact
              · exact ⟨d, by rw [esk, Function.update_noteq he]; exact hd, hin⟩
      | revoke caller keyId =>
          unfold regStep at hstep
          dsimp only at hstep
          obtain ⟨d₂, hd₂, _, esk, _, _⟩ := revokeSessionKey_ok hstep
          rcases eq_or_ne k keyId with he | he
          · subst he
            exact ⟨{ d₂ with isActive := false },
              by rw [esk, Function.update_same], rfl⟩
          · exact ⟨d, by rw [esk, Function.update_noteq he]; exact hd, hin⟩

theorem revokedAt_fold (recover : Hash → Sig → Address) {k : KeyId} :
    ∀ (ops : List RegOp) (t : RegState), revokedAt t k →
      revokedAt (ops.foldl (fun u op => regExec recover op u) t) k := by
  intro ops
  induction ops with
  | nil => intro t h; exact h
  | cons op l ih => intro t h; exact ih _ (revokedAt_exec h op)

/-- C7: revocation is terminal.  Once a grant is stored deactivated, every
sequence of further `grant`/`validate`/`revoke` calls leaves it stored and
deactivated — nothing re-activates or re-creates the `keyId` — and every
`validate` against it fails with `SessionKeyNotActive` regardless of the
time window, value or budget; moreover a successful `revoke` leaves the
grant deactivated and an identical second `revoke` by the same caller
succeeds without error and without further change. -/
theorem C7_revocation_terminal (recover : Hash → Sig → Address) (s : RegState)
    (k : KeyId) :
    (revokedAt s k → ∀ ops : List RegOp,
      revokedAt (ops.foldl (fun t op => regExec recover op t) s) k ∧
      ∀ target functionSelector value signature messageHash now,
        validateSessionKey recover k target functionSelector value signature
          messageHash now (ops.foldl (fun t op => regExec recover op t) s)
          = .error .SessionKeyNotActive) ∧
    (∀ caller s₁, revokeSessionKey caller k s = .ok s₁ →
      revokedAt s₁ k ∧ revokeSessionKey caller k s₁ = .ok s₁) := by
  refine ⟨?_, ?_⟩
  · intro hrev ops
    have hf := revokedAt_fold recover ops s hrev
    exact ⟨hf, fun target functionSelector value signature messageHash now =>
      validate_inactive hf target functionSelector value signature messageHash now⟩
  · intro caller s₁ h
    obtain ⟨d, hd, hauth, esk, euk, eo⟩ := revokeSessionKey_ok h
    have hsk₁ : s₁.sessionKeys k = some { d with isActive := false } := by
      rw [esk, Function.update_same]
    refine ⟨⟨_, hsk₁, rfl⟩, ?_⟩
    have hor : caller = s₁.owner ∨ isOwnerOfSessionKey s₁ caller k = true := by
      rcases hauth with hcs | hios
      · left
        rw [eo]
        exact hcs
      · right
        unfold isOwnerOfSessionKey
        rw [euk]
        exact hios
    unfold revokeSessionKey
    rw [hsk₁]
    dsimp only
    rw [if_neg (not_not_intro hor)]
    have hupd : Function.update s₁.sessionKeys k (some { d with isActive := false }) = s₁.sessionKeys := by
      rw [esk, Function.update_idem, ← esk]
    show Except.ok ({ s₁ with sessionKeys := Function.update s₁.sessionKeys k (some { d with isActive := false }) } : RegState) = Except.ok s₁
    rw [hupd]

/-- Witness for C7: after the granter (`10`) revokes the demo grant, a
repeated revoke succeeds unchanged and a validate inside the window with the
right signature still fails with `SessionKeyNotActive`. -/
theorem C7_revocation_terminal_witness :
    revokeSessionKey 10 demoKey demoReg = .ok revokedReg ∧
    revokedAt revokedReg demoKey ∧
    revokeSessionKey 10 demoKey revokedReg = .ok revokedReg ∧
    validateSessionKey demoRecover demoKey 7 1 0 5 0 150 revokedReg
      = .error .SessionKeyNotActive := by
  have hrv : revokeSessionKey 10 demoKey demoReg = .ok revokedReg := rfl
  have hc := (C7_revocation_terminal demoRecover demoReg demoKey).2 10 revokedReg hrv
  refine ⟨hrv, hc.1, hc.2, ?_⟩
  exact ((C7_revocation_terminal demoRecover revokedReg demoKey).1 hc.1 []).2
    7 1 0 5 0 150

/-! ## Stored-grant well-formedness and the validate cascade -/

theorem regWF_initial (deployer : Address) : regWF (initialReg deployer) := by
  intro k d hd
  exact Option.noConfusion hd

theorem regWF_exec (recover : Hash → Sig → Address) (op : RegOp) {t : RegState}
    (hwf : regWF t) : regWF (regExec recover op t) := by
  unfold regExec
  cases hstep : regStep recover op t with
  | error e => exact hwf
  | ok t₁ =>
      cases op with
      | grant caller sessionKey target functionSelector valueLimit
          maxTransactions validAfter validUntil now =>
          unfold regStep at hstep
          dsimp only at hstep
          cases hg : grantSessionKey caller sessionKey target functionSelector
              valueLimit maxTransactions validAfter validUntil now t with
          | error e => rw [hg] at hstep; exact Except.noConfusion hstep
          | ok p =>
              obtain ⟨t₂, kid⟩ := p
              rw [hg] at hstep
              simp only [Except.map, Except.ok.injEq] at hstep
              subst hstep
              obtain ⟨_, _, hvv, _, _, _, esk, _, _⟩ := grantSessionKey_ok hg
              intro k d hd
              rw [esk] at hd
              rcases eq_or_ne k kid with he | he
              · subst he
                rw [Function.update_same] at hd
                injection hd with hdd
                subst hdd
                exact hvv
              · rw [Function.update_noteq he] at hd
                exact hwf k d hd
      | validate keyId target functionSelector value signature messageHash now =>
          unfold regStep at hstep
          dsimp only at hstep
          cases hv : validateSessionKey recover keyId target functionSelector
              value signature messageHash now t with
          | error e => rw [hv] at hstep; exact Except.noConfusion hstep
          | ok p =>
              obtain ⟨t₂, rb⟩ := p
              rw [hv] at hstep
              simp only [Except.map, Except.ok.injEq] at hstep
              subst hstep
              obtain ⟨d₂, hd₂, _, _, _, _, _, _, _, _, _, esk, _, _⟩ :=
                validateSessionKey_ok hv
              intro k d hd
              rw [esk] at hd
              rcases eq_or_ne k keyId with he | he
              · subst he
                rw [Function.update_same] at hd
                injection hd with hdd
                subst hdd
                exact hwf k d₂ hd₂
              · rw [Function.update_noteq he] at hd
                exact hwf k d hd
      | revoke caller keyId =>
          unfold regStep at hstep
          dsimp only at hstep
          obtain ⟨d₂, hd₂, _, esk, _, _⟩ := revokeSessionKey_ok hstep
          intro k d hd
          rw [esk] at hd
          rcases eq_or_ne k keyId with he | he
          · subst he
            rw [Function.update_same] at hd
            injection hd with hdd
            subst hdd
            exact hwf k d₂ hd₂
          · rw [Function.update_noteq he] at hd
            exact hwf k d hd

theorem validate_iterate {recover : Hash → Sig → Address} {keyId : KeyId}
    {target : Address} {functionSelector : Selector} {value : Nat}
    {signature : Sig} {messageHash : Hash} {now : Nat} (d : SessionKeyData)
    (hact : d.isActive = true) (hva : d.validAfter ≤ now)
    (hvu : now ≤ d.validUntil) (hval : value ≤ d.valueLimit)
    (htgt : target = d.target) (hsel : functionSelector = d.functionSelector)
    (hsig : recover messageHash signature = d.sessionKey) :
    ∀ (k c : Nat) (t : RegState), c + k ≤ d.maxTransactions →
      t.sessionKeys keyId = some { d with transactionCount := c } →
      ((fun u => regExec recover (.validate keyId target functionSelector value
        signature messageHash now) u)^[k] t).sessionKeys keyId
        = some { d with transactionCount := c + k } := by
  intro k
  induction k with
  | zero =>
      intro c t hb ht
      simpa using ht
  | succ k ih =>
      intro c t hb ht
      have hstep : validateSessionKey recover keyId target functionSelector value signature messageHash now t = .ok ({ t with sessionKeys := Function.update t.sessionKeys keyId (some { d with transactionCount := c + 1 }) }, true) := by
        unfold validateSessionKey
        rw [ht]
        dsimp only
        rw [if_neg (by simp [hact]),
          if_neg (by omega),
          if_neg (by omega),
          if_neg (by omega),
          if_neg (by omega),
          if_neg (not_not_intro htgt),
          if_neg (not_not_intro hsel),
          if_neg (not_not_intro hsig)]
      have hexec : regExec recover (.validate keyId target functionSelector value signature messageHash now) t = { t with sessionKeys := Function.update t.sessionKeys keyId (some { d with transactionCount := c + 1 }) } := by
        unfold regExec regStep
        dsimp only
        rw [hstep]
        rfl
      simp only [Function.iterate_succ_apply]
      rw [hexec]
      have harith : c + (k + 1) = (c + 1) + k := by omega
      rw [harith]
      refine ih (c + 1) _ (by omega) ?_
      dsimp only
      rw [Function.update_same]

/-- C6: `validateSessionKey` performs its checks in the stated order, each
with its own distinct failure signal (grant exists; `isActive`;
`now ≥ validAfter`; `now ≤ validUntil`; `transactionCount <
maxTransactions`; `value ≤ valueLimit`; exact `target` match; exact
`functionSelector` match; signature recovery), increments
`transactionCount` and returns success only when every check passes; after
exactly `maxTransactions` successful calls the next identical call fails
with `ExceededTransactionLimit`; and an existing active grant with
`now > validUntil` fails with `SessionKeyExpired` regardless of the
remaining budget (for every stored grant of a well-formed registry, where
`grantSessionKey` guarantees `validAfter < validUntil`). -/
theorem C6_validate_order_budget_expiry
    (recover : Hash → Sig → Address) (t : RegState) (keyId : KeyId)
    (target : Address) (functionSelector : Selector) (value : Nat)
    (signature : Sig) (messageHash : Hash) (now : Nat) :
    (t.sessionKeys keyId = none →
      validateSessionKey recover keyId target functionSelector value signature
        messageHash now t = .error .SessionKeyNotFound) ∧
    (∀ d, t.sessionKeys keyId = some d →
      (d.isActive = false →
        validateSessionKey recover keyId target functionSelector value signature
          messageHash now t = .error .SessionKeyNotActive) ∧
      (d.isActive = true → now < d.validAfter →
        validateSessionKey recover keyId target functionSelector value signature
          messageHash now t = .error .SessionKeyNotYetValid) ∧
      (d.isActive = true → d.validAfter ≤ now → d.validUntil < now →
        validateSessionKey recover keyId target functionSelector value signature
          messageHash now t = .error .SessionKeyExpired) ∧
      (d.isActive = true → d.validAfter < d.validUntil → d.validUntil < now →
        validateSessionKey recover keyId target functionSelector value signature
          messageHash now t = .error .SessionKeyExpired) ∧
      (regWF t → d.isActive = true → d.validUntil < now →
        validateSessionKey recover keyId target functionSelector value signature
          messageHash now t = .error .SessionKeyExpired) ∧
      (d.isActive = true → d.validAfter ≤ now → now ≤ d.validUntil →
        d.maxTransactions ≤ d.transactionCount →
        validateSessionKey recover keyId target functionSelector value signature
          messageHash now t = .error .ExceededTransactionLimit) ∧
      (d.isActive = true → d.validAfter ≤ now → now ≤ d.validUntil →
        d.transactionCount < d.maxTransactions → d.valueLimit < value →
        validateSessionKey recover keyId target functionSelector value signature
          messageHash now t = .error .ExceededValueLimit) ∧
      (d.isActive = true → d.validAfter ≤ now → now ≤ d.validUntil →
        d.transactionCount < d.maxTransactions → value ≤ d.valueLimit →
        target ≠ d.target →
        validateSessionKey recover keyId target functionSelector value signature
          messageHash now t = .error .UnauthorizedTarget) ∧
      (d.isActive = true → d.validAfter ≤ now → now ≤ d.validUntil →
        d.transactionCount < d.maxTransactions → value ≤ d.valueLimit →
        target = d.target → functionSelector ≠ d.functionSelector →
        validateSessionKey recover keyId target functionSelector value signature
          messageHash now t = .error .UnauthorizedFunction) ∧
      (d.isActive = true → d.validAfter ≤ now → now ≤ d.validUntil →
        d.transactionCount < d.maxTransactions → value ≤ d.valueLimit →
        target = d.target → functionSelector = d.functionSelector →
        recover messageHash signature ≠ d.sessionKey →
        validateSessionKey recover keyId target functionSelector value signature
          messageHash now t = .error .InvalidSignature) ∧
      (d.isActive = true → d.validAfter ≤ now → now ≤ d.validUntil →
        d.transactionCount < d.maxTransactions → value ≤ d.valueLimit →
        target = d.target → functionSelector = d.functionSelector →
        recover messageHash signature = d.sessionKey →
        validateSessionKey recover keyId target functionSelector value signature
          messageHash now t
          = .ok ({ t with sessionKeys := Function.update t.sessionKeys keyId (some { d with transactionCount := d.transactionCount + 1 }) }, true)) ∧
      (d.transactionCount = 0 → d.isActive = true → d.validAfter ≤ now →
        now ≤ d.validUntil → value ≤ d.valueLimit → target = d.target →
        functionSelector = d.functionSelector →
        recover messageHash signature = d.sessionKey →
        ((fun u => regExec recover (.validate keyId target functionSelector
            value signature messageHash now) u)^[d.maxTransactions] t).sessionKeys
            keyId = some { d with transactionCount := d.maxTransactions } ∧
        validateSessionKey recover keyId target functionSelector value signature
          messageHash now
          ((fun u => regExec recover (.validate keyId target functionSelector
            value signature messageHash now) u)^[d.maxTransactions] t)
          = .error .ExceededTransactionLimit)) := by
  constructor
  · intro hnone
    unfold validateSessionKey
    rw [hnone]
  · intro d hd
    have hNA : d.isActive = false →
        validateSessionKey recover keyId target functionSelector value signature
          messageHash now t = .error .SessionKeyNotActive := by
      intro hin
      unfold validateSessionKey
      rw [hd]
      dsimp only
      rw [if_pos (by simp [hin])]
    have hNYV : d.isActive = true → now < d.validAfter →
        validateSessionKey recover keyId target functionSelector value signature
          messageHash now t = .error .SessionKeyNotYetValid := by
      intro hact hlt
      unfold validateSessionKey
      rw [hd]
      dsimp only
      rw [if_neg (by simp [hact]), if_pos hlt]
    have hEXP : d.isActive = true → d.validAfter ≤ now → d.validUntil < now →
        validateSessionKey recover keyId target functionSelector value signature
          messageHash now t = .error .SessionKeyExpired := by
      intro hact hva hvu
      unfold validateSessionKey
      rw [hd]
      dsimp only
      rw [if_neg (by simp [hact]), if_neg (by omega), if_pos hvu]
    have hETL : d.isActive = true → d.validAfter ≤ now → now ≤ d.validUntil →
        d.maxTransactions ≤ d.transactionCount →
        validateSessionKey recover keyId target functionSelector value signature
          messageHash now t = .error .ExceededTransactionLimit := by
      intro hact hva hvu hcnt
      unfold validateSessionKey
      rw [hd]
      dsimp only
      rw [if_neg (by simp [hact]), if_neg (by omega), if_neg (by omega),
        if_pos hcnt]
    have hEVL : d.isActive = true → d.validAfter ≤ now → now ≤ d.validUntil →
        d.transactionCount < d.maxTransactions → d.valueLimit < value →
        validateSessionKey recover keyId target functionSelector value signature
          messageHash now t = .error .ExceededValueLimit := by
      intro hact hva hvu hcnt hv
      unfold validateSessionKey
      rw [hd]
      dsimp only
      rw [if_neg (by simp [hact]), if_neg (by omega), if_neg (by omega),
        if_neg (by omega), if_pos hv]
    have hUT : d.isActive = true → d.validAfter ≤ now → now ≤ d.validUntil →
        d.transactionCount < d.maxTransactions → value ≤ d.valueLimit →
        target ≠ d.target →
        validateSessionKey recover keyId target functionSelector value signature
          messageHash now t = .error .UnauthorizedTarget := by
      intro hact hva hvu hcnt hv htne
      unfold validateSessionKey
      rw [hd]
      dsimp only
      rw [if_neg (by simp [hact]), if_neg (by omega), if_neg (by omega),
        if_neg (by omega), if_neg (by omega), if_pos htne]
    have hUF : d.isActive = true → d.validAfter ≤ now → now ≤ d.validUntil →
        d.transactionCount < d.maxTransactions → value ≤ d.valueLimit →
        target = d.target → functionSelector ≠ d.functionSelector →
        validateSessionKey recover keyId target functionSelector value signature
          messageHash now t = .error .UnauthorizedFunction := by
      intro hact hva hvu hcnt hv hteq hfne
      unfold validateSessionKey
      rw [hd]
      dsimp only
      rw [if_neg (by simp [hact]), if_neg (by omega), if_neg (by omega),
        if_neg (by omega), if_neg (by omega), if_neg (not_not_intro hteq),
        if_pos hfne]
    have hIS : d.isActive = true → d.validAfter ≤ now → now ≤ d.validUntil →
        d.transactionCount < d.maxTransactions → value ≤ d.valueLimit →
        target = d.target → functionSelector = d.functionSelector →
        recover messageHash signature ≠ d.sessionKey →
        validateSessionKey recover keyId target functionSelector value signature
          messageHash now t = .error .InvalidSignature := by
      intro hact hva hvu hcnt hv hteq hfeq hsne
      unfold validateSessionKey
      rw [hd]
      dsimp only
      rw [if_neg (by simp [hact]), if_neg (by omega), if_neg (by omega),
        if_neg (by omega), if_neg (by omega), if_neg (not_not_intro hteq),
        if_neg (not_not_intro hfeq), if_pos hsne]
    have hOK : d.isActive = true → d.validAfter ≤ now → now ≤ d.validUntil →
        d.transactionCount < d.maxTransactions → value ≤ d.valueLimit →
        target = d.target → functionSelector = d.functionSelector →
        recover messageHash signature = d.sessionKey →
        validateSessionKey recover keyId target functionSelector value signature
          messageHash now t
          = .ok ({ t with sessionKeys := Function.update t.sessionKeys keyId (some { d with transactionCount := d.transactionCount + 1 }) }, true) := by
      intro hact hva hvu hcnt hv hteq hfeq hseq
      unfold validateSessionKey
      rw [hd]
      dsimp only
      rw [if_neg (by simp [hact]), if_neg (by omega), if_neg (by omega),
        if_neg (by omega), if_neg (by omega), if_neg (not_not_intro hteq),
        if_neg (not_not_intro hfeq), if_neg (not_not_intro hseq)]
    refine ⟨hNA, hNYV, hEXP, ?_, ?_, hETL, hEVL, hUT, hUF, hIS, hOK, ?_⟩
    · intro hact hvv hvu
      exact hEXP hact (by omega) hvu
    · intro hwf hact hvu
      have hvv := hwf keyId d hd
      exact hEXP hact (by omega) hvu
    · intro hc0 hact hva hvu hv hteq hfeq hseq
      have hdd : ({ d with transactionCount := 0 } : SessionKeyData) = d := by
        cases d
        dsimp only at hc0 ⊢
        rw [hc0]
      have hiter := validate_iterate d hact hva hvu hv hteq hfeq hseq
        d.maxTransactions 0 t (by omega) (by rw [hdd]; exact hd)
      simp only [Nat.zero_add] at hiter
      refine ⟨hiter, ?_⟩
      unfold validateSessionKey
      rw [hiter]
      dsimp only
      rw [if_neg (by simp [hact]), if_neg (by omega), if_neg (by omega),
        if_pos (by omega)]

/-- Witness for C6: the demo grant has a budget of 2; after two successful
validations its counter is 2 and the next identical call fails with
`ExceededTransactionLimit`. -/
theorem C6_validate_order_budget_expiry_witness :
    ((fun u => regExec demoRecover (RegOp.validate demoKey 7 1 0 5 0 150) u)^[2]
      demoReg).sessionKeys demoKey
      = some { demoGrantData with transactionCount := 2 } ∧
    validateSessionKey demoRecover demoKey 7 1 0 5 0 150
      ((fun u => regExec demoRecover (RegOp.validate demoKey 7 1 0 5 0 150) u)^[2]
        demoReg) = .error .ExceededTransactionLimit := by
  have h := ((C6_validate_order_budget_expiry demoRecover demoReg demoKey
    7 1 0 5 0 150).2 demoGrantData rfl).2.2.2.2.2.2.2.2.2.2.2
  exact h rfl rfl (by decide) (by decide) (by decide) rfl rfl rfl

/-- C8: the grant identifier is a deterministic function of exactly
(granter, sessionKey, target, functionSelector, validAfter, validUntil);
`grantSessionKey` rejects a null sessionKey or target, a window with
`validUntil ≤ validAfter`, and a `validUntil` not in the future, each with
its own signal; and a second grant whose six identity fields equal an
existing grant's — even with different `valueLimit`/`maxTransactions` — is
rejected with the distinct `SessionKeyAlreadyExists` signal (when submitted
while the window is still valid, so that the earlier requires pass). -/
theorem C8_grant_key_identity (s : RegState) (caller sessionKey target : Address)
    (functionSelector : Selector)
    (valueLimit maxTransactions validAfter validUntil now : Nat) :
    (∀ s' kid, grantSessionKey caller sessionKey target functionSelector
        valueLimit maxTransactions validAfter validUntil now s = .ok (s', kid) →
      kid = ⟨caller, sessionKey, target, functionSelector, validAfter,
        validUntil⟩) ∧
    (sessionKey = 0 →
      grantSessionKey caller sessionKey target functionSelector valueLimit
        maxTransactions validAfter validUntil now s
        = .error .InvalidSessionKey) ∧
    (sessionKey ≠ 0 → target = 0 →
      grantSessionKey caller sessionKey target functionSelector valueLimit
        maxTransactions validAfter validUntil now s = .error .InvalidTarget) ∧
    (sessionKey ≠ 0 → target ≠ 0 → validUntil ≤ validAfter →
      grantSessionKey caller sessionKey target functionSelector valueLimit
        maxTransactions validAfter validUntil now s
        = .error .InvalidValidityPeriod) ∧
    (sessionKey ≠ 0 → target ≠ 0 → validAfter < validUntil → validUntil ≤ now →
      grantSessionKey caller sessionKey target functionSelector valueLimit
        maxTransactions validAfter validUntil now s = .error .AlreadyExpired) ∧
    (∀ s' kid, grantSessionKey caller sessionKey target functionSelector
        valueLimit maxTransactions validAfter validUntil now s = .ok (s', kid) →
      ∀ valueLimit₂ maxTransactions₂ now₂, now₂ < validUntil →
        grantSessionKey caller sessionKey target functionSelector valueLimit₂
          maxTransactions₂ validAfter validUntil now₂ s'
          = .error .SessionKeyAlreadyExists) := by
  refine ⟨?_, ?_, ?_, ?_, ?_, ?_⟩
  · intro s' kid h
    exact (grantSessionKey_ok h).2.2.2.2.1
  · intro h₁
    unfold grantSessionKey
    rw [if_pos h₁]
  · intro h₁ h₂
    unfold grantSessionKey
    rw [if_neg h₁, if_pos h₂]
  · intro h₁ h₂ h₃
    unfold grantSessionKey
    rw [if_neg h₁, if_neg h₂, if_pos (by omega)]
  · intro h₁ h₂ h₃ h₄
    unfold grantSessionKey
    rw [if_neg h₁, if_neg h₂, if_neg (not_not_intro h₃), if_pos (by omega)]
  · intro s' kid h valueLimit₂ maxTransactions₂ now₂ hnow
    obtain ⟨h₁, h₂, h₃, _, hkid, _, esk, _, _⟩ := grantSessionKey_ok h
    subst hkid
    unfold grantSessionKey
    rw [if_neg h₁, if_neg h₂, if_neg (not_not_intro h₃),
      if_neg (not_not_intro hnow)]
    dsimp only
    rw [esk, Function.update_same]

/-- Witness for C8: granting the demo parameters on a fresh registry returns
the six-field identity `demoKey`; re-granting the same identity with
different limits is rejected with `SessionKeyAlreadyExists`; and a zero
session key is rejected with its own signal. -/
theorem C8_grant_key_identity_witness :
    (∃ s', grantSessionKey 10 5 7 1 0 2 100 200 150 (initialReg 0)
        = .ok (s', demoKey) ∧
      grantSessionKey 10 5 7 1 9 99 100 200 150 s'
        = .error .SessionKeyAlreadyExists) ∧
    grantSessionKey 10 0 7 1 0 2 100 200 150 (initialReg 0)
      = .error .InvalidSessionKey := by
  refine ⟨⟨_, rfl, ?_⟩, ?_⟩
  · exact (C8_grant_key_identity (initialReg 0) 10 5 7 1 0 2 100 200
      150).2.2.2.2.2 _ demoKey rfl 9 99 150 (by decide)
  · exact (C8_grant_key_identity (initialReg 0) 10 0 7 1 0 2 100 200
      150).2.1 rfl

end YieldOptimizer
